import Mathlib

/-!
# ScreenContainer (windows/RNScreens/ScreenContainer.cpp)

A shallow embedding of the screen-stack visibility algorithm of the Windows
`ScreenContainer`: the ordered collection `m_children`, the displayed `Content`
slot, the four mutation operations and the visibility pass `updateVisualTree`.

Conventions of the embedding.

* Every operation is a function from the container state to a pair
  `(outcome, state')`: a C++ exception (or crash) leaves the object in the state
  it had when the fault was raised, and that state is part of the result.
* The two `for` loops are recursive functions over a fuel argument; `none` means
  the fuel ran out. The theorems give a fuel bound under which the loops finish.
* C++ integer conversions are explicit: `toUInt32` is the conversion to
  `uint32_t`, `wrapInt32` the result of `int` arithmetic.
* Sizes. The statements about the two loops are for containers with fewer than 2^31
  children, so that the `int` counter never overflows; the statement about an in-range
  `removeChildAt` is for at most 2^32 children, the range of a `uint32_t` position.
* Object identity. A `UIElement` and a `Screen` reference to the same object carry the
  same `id`; the projections `try_as` keep it, and `IndexOf` compares it.
* Call sequences. `run` applies a list of calls (`Op`) to a container; the states it
  yields from a new container are the reachable states when activity states are fixed.
  `runLive` applies a list of events (`Event`): calls, and changes of the screen part of
  a live object between calls, seen through every reference the container holds.
* Loop records. `getTopScreenLoopTrace` and `evictLoopTrace` are the two loops with a
  record of every loop test (`LoopTest`); dropping the record gives the loops back
  (`getTopScreenLoopTrace_erase`, `evictLoopTrace_erase`).
-/

namespace RNScreens

/-! ## Machine integers -/

/-- Conversion of an integer value to `uint32_t` (reduction modulo 2^32). -/
def toUInt32 (z : Int) : Nat := (z % 4294967296).toNat

/-- Value of an `int` after arithmetic, two's complement on 32 bits. -/
def wrapInt32 (z : Int) : Int := (z + 2147483648) % 4294967296 - 2147483648

/-! ## Data model -/

/-- Modelled from the spec: the enum `ActivityState` is declared in `Screen.h`, which is
not among the sources. The container only compares against `ON_TOP` and `INACTIVE`. -/
inductive ActivityState where
  | INACTIVE
  | TRANSITIONING_OR_ACTIVE
  | ON_TOP
deriving DecidableEq, Repr

/-- Modelled from the spec: the part of a `Screen` object (declared in `Screen.h`, not
among the sources) that the container reads or writes: its activity state and the
back-reference to its owning container (`none` is the null pointer, `some a` the
container at address `a`). -/
structure ScreenState where
  activityState : ActivityState
  screenContainer : Option Nat
deriving DecidableEq, Repr

/-- A non-null `UIElement` reference held by the container: the identity of the
underlying object and, when the object is also a `Screen`, its screen part
(`none` when `try_as<Screen>()` yields null). -/
structure UIElement where
  id : Nat
  screen : Option ScreenState
deriving DecidableEq, Repr

/-- Modelled from the spec: a non-null `Screen` reference (`Screen &` or a non-null
`com_ref<Screen>`): the identity of the object, its screen part, and whether the object
can be viewed as a visual node (whether `try_as<UIElement>()` succeeds). -/
structure Screen where
  id : Nat
  state : ScreenState
  uiElement : Bool
deriving DecidableEq, Repr

/-- The call `screen.getActivityState()`. -/
def Screen.getActivityState (s : Screen) : ActivityState := s.state.activityState

/-- The call `screen.setScreenContainer(container)`. -/
def Screen.setScreenContainer (s : Screen) (container : Nat) : Screen :=
  { s with state := { s.state with screenContainer := some container } }

/-- The projection `try_as<UIElement>()` of a screen: the same object seen as a
visual node, or `none` when the object is no visual node. Both projections are views of
one object: they keep its identity and its screen part. -/
def Screen.try_as_UIElement (s : Screen) : Option UIElement :=
  if s.uiElement then some { id := s.id, screen := some s.state } else none

/-- The projection `try_as<Screen>()` of a visual node: the same object seen as a
screen, or `none` when the object is no screen. A screen reached this way is a visual
node, so projecting it back succeeds and gives the node it came from. -/
def UIElement.try_as_Screen (u : UIElement) : Option Screen :=
  match u.screen with
  | none => none
  | some st => some { id := u.id, state := st, uiElement := true }

/-- The ways an operation can end abnormally: the bounds exception of the host
collection (`hresult_out_of_bounds`), and a member call through a null `com_ref`. -/
inductive Fault where
  | outOfBounds
  | nullDereference
deriving DecidableEq, Repr

deriving instance DecidableEq for Except

/-! ## The host collection `IVector<UIElement>`

The collection is the platform's (`winrt::single_threaded_vector`); its contract is
taken from the platform: `GetAt`, `RemoveAt` and `SetAt` raise the bounds exception
when the `uint32_t` index is not below the size, `IndexOf` compares references by
object identity. -/

/-- The call `Size()`. -/
def Size (v : List UIElement) : Nat := v.length

/-- The call `GetAt(index)`. -/
def GetAt (v : List UIElement) (index : Nat) : Except Fault UIElement :=
  match v[index]? with
  | some u => .ok u
  | none => .error .outOfBounds

/-- The call `RemoveAt(index)`. -/
def RemoveAt (v : List UIElement) (index : Nat) : Except Fault (List UIElement) :=
  if index < v.length then .ok (v.eraseIdx index) else .error .outOfBounds

/-- The call `SetAt(index, value)`. -/
def SetAt (v : List UIElement) (index : Nat) (value : UIElement) :
    Except Fault (List UIElement) :=
  if index < v.length then .ok (v.set index value) else .error .outOfBounds

/-- The call `IndexOf(value, index)`: position of the first reference to the same
object, `none` when the call returns false. -/
def IndexOf : List UIElement → UIElement → Option Nat
  | [], _ => none
  | u :: us, value =>
    if u.id = value.id then some 0
    else match IndexOf us value with
      | none => none
      | some k => some (k + 1)

/-- The call `Append(value)`. -/
def Append (v : List UIElement) (value : UIElement) : List UIElement := v ++ [value]

/-- The call `Clear()`. -/
def Clear (_v : List UIElement) : List UIElement := []

/-! ## The container -/

/-- State of a `ScreenContainer`: its own address (the value of `this`), the ordered
collection `m_children` and the `Content` slot (`none` is `nullptr`). -/
structure ScreenContainer where
  self : Nat
  m_children : List UIElement
  Content : Option UIElement
deriving DecidableEq, Repr

/-- The constructor `ScreenContainer::ScreenContainer`: no children, empty content. -/
def ScreenContainer.new (self : Nat) : ScreenContainer :=
  { self := self, m_children := [], Content := none }

/-- The method `ScreenContainer::removeAllChildren`. -/
def removeAllChildren (c : ScreenContainer) : Except Fault Unit × ScreenContainer :=
  let c := { c with Content := none }
  let c := { c with m_children := Clear c.m_children }
  (.ok (), c)

/-- The method `ScreenContainer::removeChildAt`; `index` is the `int64_t` argument. -/
def removeChildAt (c : ScreenContainer) (index : Int) : Except Fault Unit × ScreenContainer :=
  match GetAt c.m_children (toUInt32 index) with
  | .error e => (.error e, c)
  | .ok child =>
    let _screen := child.try_as_Screen
    match RemoveAt c.m_children (toUInt32 index) with
    | .error e => (.error e, c)
    | .ok v => (.ok (), { c with m_children := v })

/-- The method `ScreenContainer::replaceChild`. -/
def replaceChild (c : ScreenContainer) (oldChild newChild : UIElement) :
    Except Fault Unit × ScreenContainer :=
  match IndexOf c.m_children oldChild with
  | none => (.ok (), c)
  | some index =>
    match SetAt c.m_children index newChild with
    | .error e => (.error e, c)
    | .ok v => (.ok (), { c with m_children := v })

/-- The loop of `getTopScreen` from counter value `i` (an `int`). -/
def getTopScreenLoop (c : ScreenContainer) :
    Nat → Int → Option (Except Fault (Option Screen) × ScreenContainer)
  | 0, _ => none
  | fuel + 1, i =>
    if toUInt32 i < Size c.m_children then
      match GetAt c.m_children (toUInt32 i) with
      | .error e => some (.error e, c)
      | .ok child =>
        match child.try_as_Screen with
        | none => some (.error .nullDereference, c)
        | some screen =>
          if screen.getActivityState = ActivityState.ON_TOP then
            some (.ok (some screen), c)
          else
            getTopScreenLoop c fuel (wrapInt32 (i + 1))
    else
      some (.ok none, c)

/-- The method `ScreenContainer::getTopScreen`; the result `none` is `nullptr`. -/
def getTopScreen (fuel : Nat) (c : ScreenContainer) :
    Option (Except Fault (Option Screen) × ScreenContainer) :=
  getTopScreenLoop c fuel 0

/-- The eviction loop of `updateVisualTree` from counter value `i` (an `int`). -/
def evictLoop : Nat → ScreenContainer → Int → Option (Except Fault Unit × ScreenContainer)
  | 0, _, _ => none
  | fuel + 1, c, i =>
    if toUInt32 i < Size c.m_children then
      match GetAt c.m_children (toUInt32 i) with
      | .error e => some (.error e, c)
      | .ok child =>
        match child.try_as_Screen with
        | none => some (.error .nullDereference, c)
        | some screen =>
          if screen.getActivityState = ActivityState.INACTIVE then
            match removeChildAt c i with
            | (.error e, c') => some (.error e, c')
            | (.ok (), c') => evictLoop fuel c' (wrapInt32 (wrapInt32 (i - 1) + 1))
          else
            evictLoop fuel c (wrapInt32 (i + 1))
    else
      some (.ok (), c)

/-- The method `ScreenContainer::updateVisualTree`. -/
def updateVisualTree (fuel : Nat) (c : ScreenContainer) :
    Option (Except Fault Unit × ScreenContainer) :=
  match getTopScreen fuel c with
  | none => none
  | some (.error e, c) => some (.error e, c)
  | some (.ok none, c) => some (.ok (), c)
  | some (.ok (some topScreen), c) =>
    match topScreen.try_as_UIElement with
    | none => some (.ok (), c)
    | some uiElement =>
      let c := { c with Content := some uiElement }
      evictLoop fuel c 0

/-- The method `ScreenContainer::addScreen`; the screen is passed by reference, so its
value after the call is part of the result. The `int64_t` argument is unnamed in the
source. -/
def addScreen (fuel : Nat) (c : ScreenContainer) (screen : Screen) (_index : Int) :
    Option (Except Fault Unit × ScreenContainer × Screen) :=
  let screen := screen.setScreenContainer c.self
  match screen.try_as_UIElement with
  | none => some (.ok (), c, screen)
  | some uiElement =>
    let c := { c with m_children := Append c.m_children uiElement }
    let c := { c with Content := some uiElement }
    match updateVisualTree fuel c with
    | none => none
    | some (r, c) => some (r, c, screen)

/-! ## Reference scans

List-level descriptions of what the two loops compute; the loops are proved equal to
them below. -/

/-- What the loop of getTopScreen computes on the children it still has to visit: the
first ON_TOP screen, nothing at the end of the list, a null dereference at a child that is
no screen. -/
def scanTop : List UIElement → Except Fault (Option Screen)
  | [] => .ok none
  | u :: us =>
    match u.try_as_Screen with
    | none => .error .nullDereference
    | some screen =>
      if screen.getActivityState = ActivityState.ON_TOP then .ok (some screen) else scanTop us

/-- What the eviction loop computes on the children it still has to visit: the outcome
and the children that are left of them (INACTIVE screens dropped; at a child that is no
screen the loop stops with a null dereference and the rest stays). -/
def scanEvict : List UIElement → Except Fault Unit × List UIElement
  | [] => (.ok (), [])
  | u :: us =>
    match u.try_as_Screen with
    | none => (.error .nullDereference, u :: us)
    | some screen =>
      if screen.getActivityState = ActivityState.INACTIVE then scanEvict us
      else ((scanEvict us).1, u :: (scanEvict us).2)

/-- The child projects to a screen. -/
def UIElement.isScreen (u : UIElement) : Bool := u.try_as_Screen.isSome

/-- The child projects to a screen whose activity state is a. -/
def UIElement.reports (u : UIElement) (a : ActivityState) : Bool :=
  match u.try_as_Screen with
  | none => false
  | some screen => decide (screen.getActivityState = a)

/-- The first child, in sequence order, that reports ON_TOP. -/
def firstOnTop (v : List UIElement) : Option UIElement :=
  v.find? (fun u => u.reports ActivityState.ON_TOP)

/-- The children that do not report INACTIVE, in their order. -/
def retained (v : List UIElement) : List UIElement :=
  v.filter (fun u => !(u.reports ActivityState.INACTIVE))

/-! ## Example states -/

/-- A visual node that is a screen with the given activity state and no owner yet. -/
def exScreen (id : Nat) (a : ActivityState) : UIElement :=
  { id := id, screen := some { activityState := a, screenContainer := none } }

/-- A visual node that is no screen. -/
def exPlain (id : Nat) : UIElement := { id := id, screen := none }

/-- Two children, both ON_TOP. -/
def exTwoOnTop : ScreenContainer :=
  { self := 0, m_children := [exScreen 1 .ON_TOP, exScreen 2 .ON_TOP], Content := none }

/-- One child, INACTIVE. -/
def exOnlyInactive : ScreenContainer :=
  { self := 0, m_children := [exScreen 1 .INACTIVE], Content := none }

/-- An ON_TOP child between two INACTIVE ones. -/
def exMixed : ScreenContainer :=
  { self := 0,
    m_children := [exScreen 1 .INACTIVE, exScreen 2 .ON_TOP, exScreen 3 .INACTIVE],
    Content := none }

/-- One child, ON_TOP. -/
def exOnTopOnly : ScreenContainer :=
  { self := 0, m_children := [exScreen 1 .ON_TOP], Content := none }

/-- A projectable screen that is INACTIVE. -/
def exInactiveScreen : Screen :=
  { id := 2, state := { activityState := .INACTIVE, screenContainer := none }, uiElement := true }

/-- A projectable screen that is neither ON_TOP nor INACTIVE. -/
def exActiveScreen : Screen :=
  { id := 2, state := { activityState := .TRANSITIONING_OR_ACTIVE, screenContainer := none },
    uiElement := true }

/-- A projectable screen that is ON_TOP. -/
def exOnTopScreen : Screen :=
  { id := 1, state := { activityState := .ON_TOP, screenContainer := none }, uiElement := true }

/-- The container at address 0 after adding `exOnTopScreen` to it when new. -/
def exAdded : ScreenContainer :=
  { self := 0,
    m_children := [{ id := 1, screen := some { activityState := .ON_TOP, screenContainer := some 0 } }],
    Content := some { id := 1, screen := some { activityState := .ON_TOP, screenContainer := some 0 } } }

/-- The state `exAdded` after its only child was replaced by a node that is no screen. -/
def exReplaced : ScreenContainer :=
  { self := 0, m_children := [exPlain 7],
    Content := some { id := 1, screen := some { activityState := .ON_TOP, screenContainer := some 0 } } }

/-- An ON_TOP screen followed by a node that is no screen. -/
def exScreenThenPlain : ScreenContainer :=
  { self := 0, m_children := [exScreen 1 .ON_TOP, exPlain 7], Content := none }

/-- Three children of which the second, ON_TOP, is the displayed content. -/
def exShown : ScreenContainer :=
  { self := 0,
    m_children := [exScreen 1 .TRANSITIONING_OR_ACTIVE, exScreen 2 .ON_TOP, exScreen 3 .INACTIVE],
    Content := some (exScreen 2 .ON_TOP) }

/-- Two screens, none ON_TOP, and a content left over from before. -/
def exNoOnTop : ScreenContainer :=
  { self := 0,
    m_children := [exScreen 1 .INACTIVE, exScreen 2 .TRANSITIONING_OR_ACTIVE],
    Content := some (exScreen 9 .ON_TOP) }

/-- A screen that cannot be viewed as a visual node. -/
def exBareScreen : Screen :=
  { id := 5, state := { activityState := .ON_TOP, screenContainer := none }, uiElement := false }

/-- An INACTIVE child followed by an ON_TOP child, nothing displayed yet. -/
def exInactiveThenOnTop : ScreenContainer :=
  { self := 0, m_children := [exScreen 1 .INACTIVE, exScreen 2 .ON_TOP], Content := none }

/-! ## Call sequences -/

/-- A call on the container, as the orchestration layer issues it. -/
inductive Op where
  | addScreen (screen : Screen) (index : Int)
  | removeAllChildren
  | removeChildAt (index : Int)
  | replaceChild (oldChild newChild : UIElement)
  | updateVisualTree
deriving DecidableEq, Repr

/-- The outcome and the container state after one call; the screen handed to addScreen
is the caller's and is not kept. -/
def Op.apply (fuel : Nat) (c : ScreenContainer) :
    Op → Option (Except Fault Unit × ScreenContainer)
  | .addScreen screen index =>
    match RNScreens.addScreen fuel c screen index with
    | none => none
    | some (r, c', _) => some (r, c')
  | .removeAllChildren => some (RNScreens.removeAllChildren c)
  | .removeChildAt index => some (RNScreens.removeChildAt c index)
  | .replaceChild oldChild newChild => some (RNScreens.replaceChild c oldChild newChild)
  | .updateVisualTree => RNScreens.updateVisualTree fuel c

/-- The state after a sequence of calls. A call that completes, or that raises the bounds
exception, leaves the container in a state from which the next call runs; after a null
dereference, or when the fuel runs out, there is no state. -/
def run (fuel : Nat) : ScreenContainer → List Op → Option ScreenContainer
  | c, [] => some c
  | c, op :: ops =>
    match op.apply fuel c with
    | some (.ok (), c') => run fuel c' ops
    | some (.error .outOfBounds, c') => run fuel c' ops
    | some (.error .nullDereference, _) => none
    | none => none

/-- The call is an addScreen that appends the node `v` to the children of the container
at address `self`. -/
def Op.appends (self : Nat) (op : Op) (v : UIElement) : Bool :=
  match op with
  | .addScreen screen _ => decide ((screen.setScreenContainer self).try_as_UIElement = some v)
  | _ => false

/-- The call is a replaceChild whose new node is `v`. -/
def Op.installs (op : Op) (v : UIElement) : Bool :=
  match op with
  | .replaceChild _ newChild => decide (newChild = v)
  | _ => false

/-- Adding a screen that is neither ON_TOP nor INACTIVE to a new container. -/
def exAddActive : List Op := [Op.addScreen exActiveScreen 0]

/-- Adding an ON_TOP screen to a new container, then replacing its node by a node that is
no screen. -/
def exAddThenReplace : List Op :=
  [Op.addScreen exOnTopScreen 0, Op.replaceChild (exScreen 1 .ON_TOP) (exPlain 7)]

/-- Adding an ON_TOP screen to a new container, then removing its node. -/
def exAddThenRemove : List Op := [Op.addScreen exOnTopScreen 0, Op.removeChildAt 0]

/-- Calls that add two screens, run the pass, replace the shown screen and remove a child. -/
def exSession : List Op :=
  [Op.addScreen exOnTopScreen 0, Op.addScreen exInactiveScreen 1, Op.updateVisualTree,
    Op.addScreen exActiveScreen 0, Op.replaceChild (exScreen 1 .ON_TOP) (exScreen 8 .ON_TOP),
    Op.removeChildAt 1, Op.removeChildAt 9, Op.updateVisualTree]

/-! ## The reverse-order pass of the spec -/

/-- Following the spec's words (design note on the eviction loop), "computing the eviction
set first (screens with INACTIVE)": the positions of the children that report INACTIVE,
in ascending order. -/
def specEvictionSet (v : List UIElement) : List Nat :=
  (List.range v.length).filter fun i =>
    match v[i]? with
    | some u => u.reports ActivityState.INACTIVE
    | none => false

/-- Following the spec's words, "removing them in a single reverse-order pass": the
positions of the eviction set are removed one by one, from the last to the first. -/
def specReversePass (v : List UIElement) : List UIElement :=
  (specEvictionSet v).reverse.foldl (fun acc i => acc.eraseIdx i) v

/-! ## The loops with a record of their tests -/

/-- One evaluation of a loop condition `i < m_children.Size()` together with the body it
guards: the value of the counter `i` and of `Size()` at the test, the position handed to
`GetAt` when the body ran, the element `GetAt` returned, and the argument and outcome of
the `removeChildAt` call when the body issued one. -/
structure LoopTest where
  counter : Int
  size : Nat
  accessed : Option Nat
  examined : Option UIElement
  removal : Option (Int × Except Fault Unit)
deriving DecidableEq, Repr

/-- The loop of `getTopScreen` (the same steps as `getTopScreenLoop`) with a record of
every loop test. -/
def getTopScreenLoopTrace (c : ScreenContainer) :
    Nat → Int → Option ((Except Fault (Option Screen) × ScreenContainer) × List LoopTest)
  | 0, _ => none
  | fuel + 1, i =>
    if toUInt32 i < Size c.m_children then
      match GetAt c.m_children (toUInt32 i) with
      | .error e =>
        some ((.error e, c), [⟨i, Size c.m_children, some (toUInt32 i), none, none⟩])
      | .ok child =>
        match child.try_as_Screen with
        | none =>
          some ((.error .nullDereference, c),
            [⟨i, Size c.m_children, some (toUInt32 i), some child, none⟩])
        | some screen =>
          if screen.getActivityState = ActivityState.ON_TOP then
            some ((.ok (some screen), c),
              [⟨i, Size c.m_children, some (toUInt32 i), some child, none⟩])
          else
            match getTopScreenLoopTrace c fuel (wrapInt32 (i + 1)) with
            | none => none
            | some (p, tests) =>
              some (p, ⟨i, Size c.m_children, some (toUInt32 i), some child, none⟩ :: tests)
    else
      some ((.ok none, c), [⟨i, Size c.m_children, none, none, none⟩])

/-- The eviction loop of `updateVisualTree` (the same steps as `evictLoop`) with a record
of every loop test. -/
def evictLoopTrace :
    Nat → ScreenContainer → Int →
      Option ((Except Fault Unit × ScreenContainer) × List LoopTest)
  | 0, _, _ => none
  | fuel + 1, c, i =>
    if toUInt32 i < Size c.m_children then
      match GetAt c.m_children (toUInt32 i) with
      | .error e =>
        some ((.error e, c), [⟨i, Size c.m_children, some (toUInt32 i), none, none⟩])
      | .ok child =>
        match child.try_as_Screen with
        | none =>
          some ((.error .nullDereference, c),
            [⟨i, Size c.m_children, some (toUInt32 i), some child, none⟩])
        | some screen =>
          if screen.getActivityState = ActivityState.INACTIVE then
            match removeChildAt c i with
            | (.error e, c') =>
              some ((.error e, c'),
                [⟨i, Size c.m_children, some (toUInt32 i), some child, some (i, .error e)⟩])
            | (.ok (), c') =>
              match evictLoopTrace fuel c' (wrapInt32 (wrapInt32 (i - 1) + 1)) with
              | none => none
              | some (p, tests) =>
                some (p,
                  ⟨i, Size c.m_children, some (toUInt32 i), some child, some (i, .ok ())⟩
                    :: tests)
          else
            match evictLoopTrace fuel c (wrapInt32 (i + 1)) with
            | none => none
            | some (p, tests) =>
              some (p, ⟨i, Size c.m_children, some (toUInt32 i), some child, none⟩ :: tests)
    else
      some ((.ok (), c), [⟨i, Size c.m_children, none, none, none⟩])

/-- The loop test is in bounds: the counter is between 0 and the size, so its conversion
to `uint32_t` for the comparison is the counter itself; the position handed to `GetAt` is
the counter and is below the size; a `removeChildAt` call got the counter, which is a
position below the size, and completed. -/
def LoopTest.inBounds (t : LoopTest) : Prop :=
  0 ≤ t.counter ∧ t.counter ≤ (t.size : Int) ∧ ((toUInt32 t.counter : Nat) : Int) = t.counter ∧
  (∀ p : Nat, t.accessed = some p → (p : Int) = t.counter ∧ p < t.size) ∧
  (∀ (a : Int) (r : Except Fault Unit), t.removal = some (a, r) →
    a = t.counter ∧ 0 ≤ a ∧ a < (t.size : Int) ∧ r = .ok ())

/-- The node the call appends to the children of the container at address `self`: the
visual node of the screen of an addScreen whose projection succeeds. -/
def Op.appended (self : Nat) : Op → Option UIElement
  | .addScreen screen _ => (screen.setScreenContainer self).try_as_UIElement
  | _ => none

/-- The node appended by the most recent addScreen call of the sequence that appended
one. -/
def lastAppended (self : Nat) (ops : List Op) : Option UIElement :=
  (ops.filterMap (Op.appended self)).getLast?

/-- A projectable screen with identity 3 that is neither ON_TOP nor INACTIVE. -/
def exActiveScreen3 : Screen :=
  { id := 3, state := { activityState := .TRANSITIONING_OR_ACTIVE, screenContainer := none },
    uiElement := true }

/-- Adding two screens, neither ON_TOP nor INACTIVE, to a new container. -/
def exAddTwoActive : List Op := [Op.addScreen exActiveScreen 0, Op.addScreen exActiveScreen3 0]

/-! ## Live objects

The container holds references to objects that live outside it. `run` keeps every
reference as it was when it entered the container, which describes the calls as long as
the screens do not change. `runLive` adds the changes of the objects between calls. -/

/-- The reference `u` after the object with identity `id` got the screen part `state`
(its owner changed its activity state, or its back-reference was set): a reference to
another object, or to an object that is no screen, is as before. -/
def UIElement.refresh (id : Nat) (state : ScreenState) (u : UIElement) : UIElement :=
  if u.id = id then
    match u.screen with
    | some _ => { u with screen := some state }
    | none => u
  else u

/-- The container after the object with identity `id` got the screen part `state`: the
references it holds, children and content, show the object as it is now. -/
def ScreenContainer.refresh (id : Nat) (state : ScreenState) (c : ScreenContainer) :
    ScreenContainer :=
  { c with
    m_children := c.m_children.map (UIElement.refresh id state),
    Content := c.Content.map (UIElement.refresh id state) }

/-- What happens in the life of a container: a call on it, or a change, between two
calls, of the screen part of a live object by the layers that own the screens. -/
inductive Event where
  | call (op : Op)
  | change (id : Nat) (state : ScreenState)
deriving DecidableEq, Repr

/-- The container as a call finds it: the arguments of the call are references to live
objects, and the references the container already holds to the same objects show the same
screen part. For addScreen this is the screen part after `setScreenContainer(this)`, which
the call writes into the object before anything else. -/
def Op.sync (op : Op) (c : ScreenContainer) : ScreenContainer :=
  match op with
  | .addScreen screen _ => c.refresh screen.id (screen.setScreenContainer c.self).state
  | .replaceChild _ newChild =>
    match newChild.screen with
    | some state => c.refresh newChild.id state
    | none => c
  | _ => c

/-- The state after a sequence of events. Calls have the outcomes they have in `run`, on
the container as the call finds it; a change is seen through every reference the
container holds. -/
def runLive (fuel : Nat) : ScreenContainer → List Event → Option ScreenContainer
  | c, [] => some c
  | c, .change id state :: evs => runLive fuel (c.refresh id state) evs
  | c, .call op :: evs =>
    match op.apply fuel (op.sync c) with
    | some (.ok (), c') => runLive fuel c' evs
    | some (.error .outOfBounds, c') => runLive fuel c' evs
    | some (.error .nullDereference, _) => none
    | none => none

/-- The event is an addScreen call that appends a node of the object with identity `id`. -/
def Event.appendsId (ev : Event) (id : Nat) : Bool :=
  match ev with
  | .call (.addScreen screen _) =>
    match screen.try_as_UIElement with
    | some v => decide (v.id = id)
    | none => false
  | _ => false

/-- The event is a replaceChild call whose new node is of the object with identity `id`. -/
def Event.installsId (ev : Event) (id : Nat) : Bool :=
  match ev with
  | .call (.replaceChild _ newChild) => decide (newChild.id = id)
  | _ => false

/-- A screen is added while neither ON_TOP nor INACTIVE, an ON_TOP screen is added, the
first screen becomes INACTIVE, and the next visibility pass evicts it. -/
def exLiveSession : List Event :=
  [Event.call (Op.addScreen exActiveScreen 0), Event.call (Op.addScreen exOnTopScreen 0),
    Event.change 2 { activityState := .INACTIVE, screenContainer := some 0 },
    Event.call Op.updateVisualTree]

/-- The calls of `exAddThenReplace` as events. -/
def exLiveAddThenReplace : List Event := exAddThenReplace.map Event.call

/-! ## Machine-integer and loop lemmas -/

theorem toUInt32_natCast (n : Nat) (h : n < 4294967296) : toUInt32 (n : Int) = n := by
  unfold toUInt32
  omega

theorem wrapInt32_succ (n : Nat) (h : n + 1 < 2147483648) :
    wrapInt32 ((n : Int) + 1) = ((n + 1 : Nat) : Int) := by
  unfold wrapInt32
  omega

theorem wrapInt32_pred_succ (n : Nat) (h : n < 2147483648) :
    wrapInt32 (wrapInt32 ((n : Int) - 1) + 1) = (n : Int) := by
  unfold wrapInt32
  omega

theorem GetAt_append (pre : List UIElement) (u : UIElement) (us : List UIElement) :
    GetAt (pre ++ u :: us) pre.length = .ok u := by
  have h : (pre ++ u :: us)[pre.length]? = some u := by
    rw [List.getElem?_append_right (Nat.le_refl _)]; simp
  simp only [GetAt, h]

/-- The loop of getTopScreen, started at the position after `pre` with enough fuel,
computes `scanTop` of the remaining children and returns the state as it was. -/
theorem getTopScreenLoop_scan (c : ScreenContainer) :
    ∀ (suf pre : List UIElement) (fuel : Nat), c.m_children = pre ++ suf →
      (pre ++ suf).length < 2147483648 → suf.length < fuel →
      getTopScreenLoop c fuel (pre.length : Int) = some (scanTop suf, c) := by
  intro suf
  induction suf with
  | nil =>
    intro pre fuel hc hlen hfuel
    obtain ⟨f, rfl⟩ : ∃ f, fuel = f + 1 := ⟨fuel - 1, by simp at hfuel; omega⟩
    simp at hlen
    simp [getTopScreenLoop, scanTop, Size, hc, toUInt32_natCast pre.length (by omega)]
  | cons u us ih =>
    intro pre fuel hc hlen hfuel
    obtain ⟨f, rfl⟩ : ∃ f, fuel = f + 1 := ⟨fuel - 1, by simp at hfuel; omega⟩
    simp at hlen hfuel
    have h1 : toUInt32 (pre.length : Int) = pre.length := toUInt32_natCast _ (by omega)
    have h2 : wrapInt32 ((pre.length : Int) + 1) = ((pre ++ [u]).length : Int) := by
      rw [wrapInt32_succ _ (by omega)]; simp
    have h3 := ih (pre ++ [u]) f (by simp [hc]) (by simp; omega) (by omega)
    rw [getTopScreenLoop, h1, hc, GetAt_append]
    simp only [Size, List.length_append, List.length_cons]
    rw [if_pos (by omega)]
    simp only [scanTop]
    cases hs : u.try_as_Screen with
    | none => simp
    | some screen =>
      simp only
      by_cases ht : screen.getActivityState = ActivityState.ON_TOP
      · simp [ht]
      · simp only [ht, if_false]
        rw [h2]; exact h3


theorem removeChildAt_append (c : ScreenContainer) (pre us : List UIElement) (u : UIElement)
    (hc : c.m_children = pre ++ u :: us) (hlen : pre.length < 4294967296) :
    removeChildAt c (pre.length : Int) = (.ok (), { c with m_children := pre ++ us }) := by
  have h : (pre ++ u :: us).eraseIdx pre.length = pre ++ us := by
    rw [List.eraseIdx_append_of_length_le (Nat.le_refl _)]; simp
  simp [removeChildAt, toUInt32_natCast _ hlen, hc, GetAt_append, RemoveAt, h]

/-- The eviction loop, started at the position after `pre` with enough fuel, keeps `pre`
and computes `scanEvict` of the remaining children. -/
theorem evictLoop_scan :
    ∀ (suf pre : List UIElement) (fuel : Nat) (c : ScreenContainer), c.m_children = pre ++ suf →
      (pre ++ suf).length < 2147483648 → suf.length < fuel →
      evictLoop fuel c (pre.length : Int)
        = some ((scanEvict suf).1, { c with m_children := pre ++ (scanEvict suf).2 }) := by
  intro suf
  induction suf with
  | nil =>
    intro pre fuel c hc hlen hfuel
    obtain ⟨f, rfl⟩ : ∃ f, fuel = f + 1 := ⟨fuel - 1, by simp at hfuel; omega⟩
    simp at hlen
    simp at hc
    simp [evictLoop, scanEvict, Size, hc, toUInt32_natCast pre.length (by omega)]
    cases c; simp_all
  | cons u us ih =>
    intro pre fuel c hc hlen hfuel
    obtain ⟨f, rfl⟩ : ∃ f, fuel = f + 1 := ⟨fuel - 1, by simp at hfuel; omega⟩
    simp at hlen hfuel
    have h1 : toUInt32 (pre.length : Int) = pre.length := toUInt32_natCast _ (by omega)
    have h2 : wrapInt32 ((pre.length : Int) + 1) = ((pre ++ [u]).length : Int) := by
      rw [wrapInt32_succ _ (by omega)]; simp
    have h3 := ih (pre ++ [u]) f c (by simp [hc]) (by simp; omega) (by omega)
    have h4 := ih pre f { c with m_children := pre ++ us } rfl (by simp; omega) (by omega)
    have h5 := removeChildAt_append c pre us u hc (by omega)
    have h6 := wrapInt32_pred_succ pre.length (by omega)
    rw [evictLoop, h1, hc, GetAt_append]
    simp only [Size, List.length_append, List.length_cons]
    rw [if_pos (by omega)]
    simp only [scanEvict]
    cases hs : u.try_as_Screen with
    | none => simp [← hc]
    | some screen =>
      simp only
      by_cases ht : screen.getActivityState = ActivityState.INACTIVE
      · simp only [ht, if_true, h5, h6]
        exact h4
      · simp only [ht, if_false]
        rw [h2, h3]; simp

/-- A screen obtained from a visual node projects back to that node. -/
theorem try_as_roundtrip (u : UIElement) (s : Screen) (h : u.try_as_Screen = some s) :
    s.try_as_UIElement = some u := by
  cases u with
  | mk id screen =>
    cases screen with
    | none => simp [UIElement.try_as_Screen] at h
    | some st =>
      simp [UIElement.try_as_Screen] at h
      subst h
      simp [Screen.try_as_UIElement]

theorem scanTop_allScreens (l : List UIElement) (hall : ∀ u ∈ l, u.isScreen = true) :
    scanTop l = .ok ((firstOnTop l).bind UIElement.try_as_Screen) := by
  induction l with
  | nil => simp [scanTop, firstOnTop]
  | cons u us ih =>
    have hu : u.isScreen = true := hall u (by simp)
    have ih2 := ih (fun v hv => hall v (by simp [hv]))
    simp only [scanTop]
    cases hs : u.try_as_Screen with
    | none => simp [UIElement.isScreen, hs] at hu
    | some screen =>
      by_cases ht : screen.getActivityState = ActivityState.ON_TOP
      · simp [firstOnTop, UIElement.reports, hs, ht]
      · simp only [ht, if_false, ih2]
        simp [firstOnTop, UIElement.reports, hs, ht]

theorem scanEvict_allScreens (l : List UIElement) (hall : ∀ u ∈ l, u.isScreen = true) :
    scanEvict l = (.ok (), retained l) := by
  induction l with
  | nil => simp [scanEvict, retained]
  | cons u us ih =>
    have hu : u.isScreen = true := hall u (by simp)
    have ih2 := ih (fun v hv => hall v (by simp [hv]))
    simp only [scanEvict]
    cases hs : u.try_as_Screen with
    | none => simp [UIElement.isScreen, hs] at hu
    | some screen =>
      by_cases ht : screen.getActivityState = ActivityState.INACTIVE
      · simp [ih2, retained, UIElement.reports, hs, ht]
      · simp [ih2, retained, UIElement.reports, hs, ht]

/-- The visibility pass in terms of the two reference scans, for any children. -/
theorem updateVisualTree_scan (fuel : Nat) (c : ScreenContainer)
    (hsize : c.m_children.length < 2147483648) (hfuel : c.m_children.length < fuel) :
    updateVisualTree fuel c =
      match scanTop c.m_children with
      | .error e => some (.error e, c)
      | .ok none => some (.ok (), c)
      | .ok (some topScreen) =>
        match topScreen.try_as_UIElement with
        | none => some (.ok (), c)
        | some uiElement =>
          some ((scanEvict c.m_children).1,
            { c with Content := some uiElement, m_children := (scanEvict c.m_children).2 }) := by
  have h1 := getTopScreenLoop_scan c c.m_children [] fuel rfl (by simpa using hsize) hfuel
  simp only [List.length_nil, Nat.cast_zero] at h1
  unfold updateVisualTree getTopScreen
  rw [h1]
  cases hs : scanTop c.m_children with
  | error e => rfl
  | ok r =>
    cases r with
    | none => rfl
    | some topScreen =>
      simp only
      cases hu : topScreen.try_as_UIElement with
      | none => rfl
      | some uiElement =>
        have h2 := evictLoop_scan c.m_children [] fuel { c with Content := some uiElement } rfl
          (by simpa using hsize) hfuel
        simp only [List.length_nil, Nat.cast_zero, List.nil_append] at h2
        simp only [h2]

/-- The visibility pass when every child is a screen: nothing changes without an ON_TOP
child; otherwise the first ON_TOP child is shown and the INACTIVE children are dropped. -/
theorem updateVisualTree_allScreens (fuel : Nat) (c : ScreenContainer)
    (hsize : c.m_children.length < 2147483648) (hfuel : c.m_children.length < fuel)
    (hall : ∀ u ∈ c.m_children, u.isScreen = true) :
    updateVisualTree fuel c =
      some (.ok (),
        match firstOnTop c.m_children with
        | none => c
        | some u => { c with Content := some u, m_children := retained c.m_children }) := by
  rw [updateVisualTree_scan fuel c hsize hfuel, scanTop_allScreens _ hall,
    scanEvict_allScreens _ hall]
  cases hf : firstOnTop c.m_children with
  | none => simp
  | some u =>
    have hmem : u ∈ c.m_children := List.mem_of_find?_eq_some hf
    have hu := hall u hmem
    cases hs : u.try_as_Screen with
    | none => simp [UIElement.isScreen, hs] at hu
    | some screen => simp [hs, try_as_roundtrip u screen hs]

theorem firstOnTop_none_iff (l : List UIElement) :
    firstOnTop l = none ↔ ∀ u ∈ l, u.reports ActivityState.ON_TOP = false := by
  simp [firstOnTop, List.find?_eq_none]

theorem firstOnTop_index (l : List UIElement) (u : UIElement) (h : firstOnTop l = some u) :
    ∃ k : Nat, l[k]? = some u ∧ u.reports ActivityState.ON_TOP = true ∧
      ∀ (j : Nat) (v : UIElement), j < k → l[j]? = some v → v.reports ActivityState.ON_TOP = false := by
  induction l with
  | nil => simp [firstOnTop] at h
  | cons a as ih =>
    by_cases ha : a.reports ActivityState.ON_TOP = true
    · have hau : a = u := by simpa [firstOnTop, List.find?, ha] using h
      subst hau
      exact ⟨0, by simp, ha, fun j v hj _ => absurd hj (Nat.not_lt_zero j)⟩
    · have h2 : firstOnTop as = some u := by simpa [firstOnTop, List.find?, ha] using h
      obtain ⟨k, hk, hu, hlow⟩ := ih h2
      refine ⟨k + 1, by simpa using hk, hu, ?_⟩
      intro j v hj hv
      cases j with
      | zero =>
        have hav : a = v := by simpa using hv
        subst hav
        simpa using ha
      | succ j => exact hlow j v (by omega) (by simpa using hv)

theorem firstOnTop_of_index (l : List UIElement) (k : Nat) (u : UIElement)
    (hk : l[k]? = some u) (hu : u.reports ActivityState.ON_TOP = true)
    (hlow : ∀ (j : Nat) (v : UIElement), j < k → l[j]? = some v → v.reports ActivityState.ON_TOP = false) :
    firstOnTop l = some u := by
  induction l generalizing k with
  | nil => simp at hk
  | cons a as ih =>
    cases k with
    | zero =>
      have hau : a = u := by simpa using hk
      subst hau
      simp [firstOnTop, List.find?, hu]
    | succ k =>
      have ha : a.reports ActivityState.ON_TOP = false := hlow 0 a (by omega) (by simp)
      have h2 := ih k (by simpa using hk) (fun j v hj hv => hlow (j + 1) v (by omega) (by simpa using hv))
      simpa [firstOnTop, List.find?, ha] using h2

theorem retained_no_inactive (l : List UIElement) :
    ∀ u ∈ retained l, u.reports ActivityState.INACTIVE = false := by
  intro u hu
  simpa using (List.mem_filter.mp hu).2

/-! ## The claims -/

/-- C1: if every child projects to a screen and some child reports ON_TOP, then
updateVisualTree() completes and the content slot holds the lowest-index child that
reported ON_TOP before the call (that child is the visual node of the selected screen). -/
theorem updateVisualTree_content_first_onTop (fuel : Nat) (c : ScreenContainer)
    (hsize : c.m_children.length < 2147483648) (hfuel : c.m_children.length < fuel)
    (hall : ∀ u ∈ c.m_children, u.isScreen = true)
    (hsome : ∃ u ∈ c.m_children, u.reports ActivityState.ON_TOP = true) :
    ∃ (c' : ScreenContainer) (k : Nat) (u : UIElement) (s : Screen),
      updateVisualTree fuel c = some (.ok (), c') ∧
      c.m_children[k]? = some u ∧ u.reports ActivityState.ON_TOP = true ∧
      (∀ (j : Nat) (v : UIElement), j < k → c.m_children[j]? = some v →
        v.reports ActivityState.ON_TOP = false) ∧
      u.try_as_Screen = some s ∧ c'.Content = s.try_as_UIElement ∧ c'.Content = some u := by
  cases hf : firstOnTop c.m_children with
  | none =>
    exfalso
    obtain ⟨u, hu, ht⟩ := hsome
    have := (firstOnTop_none_iff _).mp hf u hu
    simp [ht] at this
  | some u =>
    obtain ⟨k, hk, hu, hlow⟩ := firstOnTop_index _ u hf
    cases hs : u.try_as_Screen with
    | none => simp [UIElement.reports, hs] at hu
    | some s =>
      refine ⟨{ c with Content := some u, m_children := retained c.m_children }, k, u, s,
        ?_, hk, hu, hlow, hs, ?_, rfl⟩
      · rw [updateVisualTree_allScreens fuel c hsize hfuel hall, hf]
      · simp [try_as_roundtrip u s hs]

theorem updateVisualTree_content_first_onTop_witness :
    (exTwoOnTop.m_children.length < 2147483648 ∧ exTwoOnTop.m_children.length < 3 ∧
      (∀ u ∈ exTwoOnTop.m_children, u.isScreen = true) ∧
      (∃ u ∈ exTwoOnTop.m_children, u.reports ActivityState.ON_TOP = true)) ∧
    ∃ (c' : ScreenContainer) (k : Nat) (u : UIElement) (s : Screen),
      updateVisualTree 3 exTwoOnTop = some (.ok (), c') ∧
      exTwoOnTop.m_children[k]? = some u ∧ u.reports ActivityState.ON_TOP = true ∧
      (∀ (j : Nat) (v : UIElement), j < k → exTwoOnTop.m_children[j]? = some v →
        v.reports ActivityState.ON_TOP = false) ∧
      u.try_as_Screen = some s ∧ c'.Content = s.try_as_UIElement ∧ c'.Content = some u :=
  ⟨⟨by decide, by decide, by decide, by decide⟩,
    updateVisualTree_content_first_onTop 3 exTwoOnTop (by decide) (by decide) (by decide)
      (by decide)⟩

/-- C2 (as stated, refuted): a container whose only child is an INACTIVE screen; no child
is ON_TOP, updateVisualTree() returns at once and the INACTIVE child is still there. -/
theorem updateVisualTree_keeps_inactive_without_onTop :
    (∀ u ∈ exOnlyInactive.m_children, u.isScreen = true) ∧
    updateVisualTree 2 exOnlyInactive = some (.ok (), exOnlyInactive) ∧
    (∃ u ∈ exOnlyInactive.m_children, u.reports ActivityState.INACTIVE = true) := by
  decide

/-- C2 (amended): if every child projects to a screen and some child reports ON_TOP, then
after updateVisualTree() no element of children reports INACTIVE. -/
theorem updateVisualTree_no_inactive (fuel : Nat) (c : ScreenContainer)
    (hsize : c.m_children.length < 2147483648) (hfuel : c.m_children.length < fuel)
    (hall : ∀ u ∈ c.m_children, u.isScreen = true)
    (hsome : ∃ u ∈ c.m_children, u.reports ActivityState.ON_TOP = true) :
    ∃ c' : ScreenContainer, updateVisualTree fuel c = some (.ok (), c') ∧
      ∀ u ∈ c'.m_children, u.reports ActivityState.INACTIVE = false := by
  cases hf : firstOnTop c.m_children with
  | none =>
    exfalso
    obtain ⟨u, hu, ht⟩ := hsome
    have := (firstOnTop_none_iff _).mp hf u hu
    simp [ht] at this
  | some u =>
    refine ⟨{ c with Content := some u, m_children := retained c.m_children }, ?_, ?_⟩
    · rw [updateVisualTree_allScreens fuel c hsize hfuel hall, hf]
    · exact retained_no_inactive _

theorem updateVisualTree_no_inactive_witness :
    (exMixed.m_children.length < 2147483648 ∧ exMixed.m_children.length < 4 ∧
      (∀ u ∈ exMixed.m_children, u.isScreen = true) ∧
      (∃ u ∈ exMixed.m_children, u.reports ActivityState.ON_TOP = true)) ∧
    ∃ c' : ScreenContainer, updateVisualTree 4 exMixed = some (.ok (), c') ∧
      ∀ u ∈ c'.m_children, u.reports ActivityState.INACTIVE = false :=
  ⟨⟨by decide, by decide, by decide, by decide⟩,
    updateVisualTree_no_inactive 4 exMixed (by decide) (by decide) (by decide) (by decide)⟩

theorem isScreen_of_try_as (s : Screen) (v : UIElement) (h : s.try_as_UIElement = some v) :
    v.isScreen = true ∧ v.id = s.id ∧
      ∀ a, v.reports a = decide (s.getActivityState = a) := by
  unfold Screen.try_as_UIElement at h
  split at h
  · simp only [Option.some.injEq] at h
    subst h
    simp [UIElement.isScreen, UIElement.try_as_Screen, UIElement.reports, Screen.getActivityState]
  · simp at h

theorem reports_unique (u : UIElement) (a b : ActivityState) (ha : u.reports a = true)
    (hb : u.reports b = true) : a = b := by
  unfold UIElement.reports at ha hb
  cases hs : u.try_as_Screen with
  | none => simp [hs] at ha
  | some s =>
    simp only [hs, decide_eq_true_eq] at ha hb
    exact ha.symm.trans hb

/-- C3 (as stated, refuted): the only child is ON_TOP and the added screen is INACTIVE and
projectable; the visibility pass run by addScreen evicts the visual node just appended, so
after the call it is not an element of children. -/
theorem addScreen_inactive_is_evicted :
    exInactiveScreen.try_as_UIElement.isSome = true ∧
    addScreen 3 exOnTopOnly exInactiveScreen 0
      = some (.ok (),
          { self := 0, m_children := [exScreen 1 .ON_TOP], Content := some (exScreen 1 .ON_TOP) },
          exInactiveScreen.setScreenContainer 0) ∧
    (exInactiveScreen.setScreenContainer 0).try_as_UIElement
      = some { id := 2, screen := some { activityState := .INACTIVE, screenContainer := some 0 } } ∧
    ({ id := 2, screen := some { activityState := .INACTIVE, screenContainer := some 0 } }
      : UIElement) ∉ [exScreen 1 .ON_TOP] := by
  decide

/-- C3 (amended): on a container whose children all project to screens, for every screen
that projects to a visual node and every index argument, unless the screen is INACTIVE
while some child is ON_TOP, addScreen completes and the visual node of the screen is an
element of children and is its last element. -/
theorem addScreen_appends_last (fuel : Nat) (c : ScreenContainer) (screen : Screen)
    (index : Int)
    (hsize : c.m_children.length + 1 < 2147483648) (hfuel : c.m_children.length + 1 < fuel)
    (hall : ∀ u ∈ c.m_children, u.isScreen = true)
    (hproj : screen.try_as_UIElement.isSome = true)
    (hkeep : screen.getActivityState ≠ ActivityState.INACTIVE ∨
      ∀ u ∈ c.m_children, u.reports ActivityState.ON_TOP = false) :
    ∃ (c' : ScreenContainer) (s' : Screen) (v : UIElement),
      addScreen fuel c screen index = some (.ok (), c', s') ∧
      s'.try_as_UIElement = some v ∧ v.id = screen.id ∧
      v ∈ c'.m_children ∧ c'.m_children.getLast? = some v := by
  have hproj2 : (screen.setScreenContainer c.self).try_as_UIElement.isSome = true := by
    simpa [Screen.try_as_UIElement, Screen.setScreenContainer] using hproj
  obtain ⟨v, hv⟩ := Option.isSome_iff_exists.mp hproj2
  obtain ⟨hvs, hvid, hvrep⟩ := isScreen_of_try_as _ v hv
  have hact : (screen.setScreenContainer c.self).getActivityState = screen.getActivityState := rfl
  have hall1 : ∀ u ∈ c.m_children ++ [v], u.isScreen = true := by
    intro u hu
    rcases List.mem_append.mp hu with h | h
    · exact hall u h
    · simp only [List.mem_singleton] at h; subst h; exact hvs
  have hupd := updateVisualTree_allScreens fuel
    { c with m_children := c.m_children ++ [v], Content := some v }
    (by simpa using hsize) (by simpa using hfuel) hall1
  have hvkeep : firstOnTop (c.m_children ++ [v]) ≠ none →
      v.reports ActivityState.INACTIVE = false := by
    intro hne
    rcases hkeep with h | h
    · rw [hvrep, hact]; simpa using h
    · obtain ⟨u, hu⟩ := Option.ne_none_iff_exists'.mp hne
      obtain ⟨k, hk, hut, _⟩ := firstOnTop_index _ u hu
      have hmem : u ∈ c.m_children ++ [v] := List.mem_of_find?_eq_some hu
      rcases List.mem_append.mp hmem with h' | h'
      · have := h u h'; simp [hut] at this
      · simp only [List.mem_singleton] at h'
        subst h'
        cases hb : u.reports ActivityState.INACTIVE with
        | false => rfl
        | true => exact absurd (reports_unique u _ _ hut hb) (by decide)
  simp only [] at hupd
  cases hf : firstOnTop (c.m_children ++ [v]) with
  | none =>
    simp only [hf] at hupd
    refine ⟨{ c with m_children := c.m_children ++ [v], Content := some v },
      screen.setScreenContainer c.self, v, ?_, hv, hvid, by simp, by simp⟩
    simp only [addScreen, hv, Append, hupd]
  | some u =>
    simp only [hf] at hupd
    have hk := hvkeep (by simp [hf])
    refine ⟨{ c with m_children := retained (c.m_children ++ [v]), Content := some u },
      screen.setScreenContainer c.self, v, ?_, hv, hvid, by simp [retained, hk],
      by simp [retained, hk]⟩
    simp only [addScreen, hv, Append, hupd]

theorem addScreen_appends_last_witness :
    (exOnTopOnly.m_children.length + 1 < 2147483648 ∧ exOnTopOnly.m_children.length + 1 < 3 ∧
      (∀ u ∈ exOnTopOnly.m_children, u.isScreen = true) ∧
      exActiveScreen.try_as_UIElement.isSome = true ∧
      (exActiveScreen.getActivityState ≠ ActivityState.INACTIVE ∨
        ∀ u ∈ exOnTopOnly.m_children, u.reports ActivityState.ON_TOP = false)) ∧
    ∃ (c' : ScreenContainer) (s' : Screen) (v : UIElement),
      addScreen 3 exOnTopOnly exActiveScreen 7 = some (.ok (), c', s') ∧
      s'.try_as_UIElement = some v ∧ v.id = exActiveScreen.id ∧
      v ∈ c'.m_children ∧ c'.m_children.getLast? = some v :=
  ⟨⟨by decide, by decide, by decide, by decide, by decide⟩,
    addScreen_appends_last 3 exOnTopOnly exActiveScreen 7 (by decide) (by decide) (by decide)
      (by decide) (by decide)⟩

/-- C4: on a container whose children all project to screens, getTopScreen() completes
and returns the state unchanged; its result is the screen of the first child in sequence
order that reports ON_TOP, it is empty exactly when no child reports ON_TOP (so for an
empty collection), and a second call on the returned state gives the same result. -/
theorem getTopScreen_first_onTop_pure (fuel : Nat) (c : ScreenContainer)
    (hsize : c.m_children.length < 2147483648) (hfuel : c.m_children.length < fuel)
    (hall : ∀ u ∈ c.m_children, u.isScreen = true) :
    ∃ r : Option Screen,
      getTopScreen fuel c = some (.ok r, c) ∧
      (∀ (k : Nat) (u : UIElement), c.m_children[k]? = some u →
        u.reports ActivityState.ON_TOP = true →
        (∀ (j : Nat) (v : UIElement), j < k → c.m_children[j]? = some v →
          v.reports ActivityState.ON_TOP = false) →
        r = u.try_as_Screen) ∧
      (∀ s : Screen, r = some s → ∃ (k : Nat) (u : UIElement), c.m_children[k]? = some u ∧
        u.try_as_Screen = some s ∧ s.getActivityState = ActivityState.ON_TOP ∧
        ∀ (j : Nat) (v : UIElement), j < k → c.m_children[j]? = some v →
          v.reports ActivityState.ON_TOP = false) ∧
      (r = none ↔ ∀ u ∈ c.m_children, u.reports ActivityState.ON_TOP = false) ∧
      (c.m_children = [] → r = none) ∧
      (getTopScreen fuel c).bind (fun p => getTopScreen fuel p.2) = getTopScreen fuel c := by
  have h1 := getTopScreenLoop_scan c c.m_children [] fuel rfl (by simpa using hsize) hfuel
  simp only [List.length_nil, Nat.cast_zero] at h1
  rw [scanTop_allScreens _ hall] at h1
  have hget : getTopScreen fuel c
      = some (.ok ((firstOnTop c.m_children).bind UIElement.try_as_Screen), c) := h1
  have hsome : ∀ u, firstOnTop c.m_children = some u → ∃ s, u.try_as_Screen = some s ∧
      s.getActivityState = ActivityState.ON_TOP := by
    intro u hu
    obtain ⟨k, _, hut, _⟩ := firstOnTop_index _ u hu
    unfold UIElement.reports at hut
    cases hs : u.try_as_Screen with
    | none => simp [hs] at hut
    | some s => exact ⟨s, rfl, by simpa [hs] using hut⟩
  refine ⟨_, hget, ?_, ?_, ?_, ?_, ?_⟩
  · intro k u hk hu hlow
    rw [firstOnTop_of_index _ k u hk hu hlow]; rfl
  · intro s hs
    cases hf : firstOnTop c.m_children with
    | none => simp [hf] at hs
    | some u =>
      obtain ⟨k, hk, _, hlow⟩ := firstOnTop_index _ u hf
      obtain ⟨s', hs1, hs2⟩ := hsome u hf
      have : s' = s := by simpa [hf, hs1] using hs
      subst this
      exact ⟨k, u, hk, hs1, hs2, hlow⟩
  · constructor
    · intro h
      cases hf : firstOnTop c.m_children with
      | none => exact (firstOnTop_none_iff _).mp hf
      | some u =>
        obtain ⟨s, hs1, _⟩ := hsome u hf
        simp [hf, hs1] at h
    · intro h
      rw [(firstOnTop_none_iff _).mpr h]; rfl
  · intro h
    rw [h]; rfl
  · rw [hget]; simp only [Option.bind]; exact hget

theorem getTopScreen_first_onTop_pure_witness :
    (exMixed.m_children.length < 2147483648 ∧ exMixed.m_children.length < 4 ∧
      (∀ u ∈ exMixed.m_children, u.isScreen = true)) ∧
    ∃ r : Option Screen,
      getTopScreen 4 exMixed = some (.ok r, exMixed) ∧
      (∀ (k : Nat) (u : UIElement), exMixed.m_children[k]? = some u →
        u.reports ActivityState.ON_TOP = true →
        (∀ (j : Nat) (v : UIElement), j < k → exMixed.m_children[j]? = some v →
          v.reports ActivityState.ON_TOP = false) →
        r = u.try_as_Screen) ∧
      (∀ s : Screen, r = some s → ∃ (k : Nat) (u : UIElement), exMixed.m_children[k]? = some u ∧
        u.try_as_Screen = some s ∧ s.getActivityState = ActivityState.ON_TOP ∧
        ∀ (j : Nat) (v : UIElement), j < k → exMixed.m_children[j]? = some v →
          v.reports ActivityState.ON_TOP = false) ∧
      (r = none ↔ ∀ u ∈ exMixed.m_children, u.reports ActivityState.ON_TOP = false) ∧
      (exMixed.m_children = [] → r = none) ∧
      (getTopScreen 4 exMixed).bind (fun p => getTopScreen 4 p.2) = getTopScreen 4 exMixed :=
  ⟨⟨by decide, by decide, by decide⟩,
    getTopScreen_first_onTop_pure 4 exMixed (by decide) (by decide) (by decide)⟩

/-- C5 (the code at the failing input): the state reached from a new container by
addScreen of an ON_TOP screen followed by replaceChild with a node that is no screen.
There getTopScreen() and updateVisualTree() end in a null dereference for every positive
amount of fuel, and on a container holding an ON_TOP screen followed by such a node the
eviction loop of updateVisualTree() ends the same way. -/
theorem getTopScreen_null_dereference_on_non_screen :
    addScreen 2 (ScreenContainer.new 0) exOnTopScreen 0
      = some (.ok (), exAdded, exOnTopScreen.setScreenContainer 0) ∧
    replaceChild exAdded (exScreen 1 .ON_TOP) (exPlain 7) = (.ok (), exReplaced) ∧
    (exPlain 7).try_as_Screen = none ∧
    (∀ fuel : Nat, getTopScreen (fuel + 1) exReplaced
      = some (.error .nullDereference, exReplaced)) ∧
    (∀ fuel : Nat, updateVisualTree (fuel + 1) exReplaced
      = some (.error .nullDereference, exReplaced)) ∧
    (∀ fuel : Nat, updateVisualTree (fuel + 2) exScreenThenPlain
      = some (.error .nullDereference,
          { exScreenThenPlain with Content := some (exScreen 1 .ON_TOP) })) :=
  ⟨rfl, rfl, rfl, fun _ => rfl, fun _ => rfl, fun _ => rfl⟩

/-- C6 (as stated, refuted): the index 2^32 is a 64-bit signed value that is not below
the length of children (one child), yet removeChildAt converts it to position 0, removes
the only child and reports no failure. -/
theorem removeChildAt_wraps_index_above_uint32 :
    ((-9223372036854775808 : Int) ≤ 4294967296 ∧ (4294967296 : Int) < 9223372036854775808) ∧
    (exOnlyInactive.m_children.length : Int) ≤ 4294967296 ∧
    removeChildAt exOnlyInactive 4294967296
      = (.ok (), { self := 0, m_children := [], Content := none }) := by
  decide

/-- C6 (amended): for every container state and every index whose conversion to an
unsigned 32-bit position (the index modulo 2^32) is not below the length of children,
removeChildAt(index) ends in the out-of-bounds failure and leaves the container, children
and content included, unchanged. -/
theorem removeChildAt_out_of_bounds (c : ScreenContainer) (index : Int)
    (h : c.m_children.length ≤ toUInt32 index) :
    removeChildAt c index = (.error .outOfBounds, c) := by
  have hget : c.m_children[toUInt32 index]? = none := List.getElem?_eq_none h
  simp only [removeChildAt, GetAt, hget]

theorem removeChildAt_out_of_bounds_witness :
    exTwoOnTop.m_children.length ≤ toUInt32 5 ∧
    removeChildAt exTwoOnTop 5 = (.error .outOfBounds, exTwoOnTop) :=
  ⟨by decide, removeChildAt_out_of_bounds exTwoOnTop 5 (by decide)⟩

/-- C7: for every container state (with at most 2^32 children, the range of a position of
the host collection) and every index with 0 <= index < children.length,
removeChildAt(index) completes; children becomes the old sequence with the element at
that index erased: the length drops by one, earlier elements keep their positions, later
elements move down by one; content is unchanged. -/
theorem removeChildAt_erases_in_range (c : ScreenContainer) (index : Int)
    (hsize : c.m_children.length ≤ 4294967296)
    (h0 : 0 ≤ index) (hlt : index < c.m_children.length) :
    ∃ c' : ScreenContainer, removeChildAt c index = (.ok (), c') ∧
      c'.m_children = c.m_children.eraseIdx index.toNat ∧
      c'.m_children.length + 1 = c.m_children.length ∧
      (∀ j : Nat, j < index.toNat → c'.m_children[j]? = c.m_children[j]?) ∧
      (∀ j : Nat, index.toNat ≤ j → c'.m_children[j]? = c.m_children[j + 1]?) ∧
      c'.Content = c.Content ∧ c'.self = c.self := by
  obtain ⟨n, rfl⟩ := Int.eq_ofNat_of_zero_le h0
  have hn : n < c.m_children.length := by exact_mod_cast hlt
  have hu : toUInt32 (n : Int) = n := toUInt32_natCast n (by omega)
  have hget : c.m_children[n]? = some c.m_children[n] := List.getElem?_eq_getElem hn
  refine ⟨{ c with m_children := c.m_children.eraseIdx n }, ?_, ?_, ?_, ?_, ?_, rfl, rfl⟩
  · simp only [removeChildAt, GetAt, hu, hget, RemoveAt, hn, if_true]
  · simp
  · simp only [List.length_eraseIdx, hn, if_true]; omega
  · intro j hj
    simp only [Int.toNat_ofNat] at hj
    simp [List.getElem?_eraseIdx, hj]
  · intro j hj
    simp only [Int.toNat_ofNat] at hj
    have : ¬ j < n := by omega
    simp [List.getElem?_eraseIdx, this]

theorem removeChildAt_erases_in_range_witness :
    (exShown.m_children.length ≤ 4294967296 ∧ (0 : Int) ≤ 1 ∧
      (1 : Int) < exShown.m_children.length) ∧
    ∃ c' : ScreenContainer, removeChildAt exShown 1 = (.ok (), c') ∧
      c'.m_children = exShown.m_children.eraseIdx (1 : Int).toNat ∧
      c'.m_children.length + 1 = exShown.m_children.length ∧
      (∀ j : Nat, j < (1 : Int).toNat → c'.m_children[j]? = exShown.m_children[j]?) ∧
      (∀ j : Nat, (1 : Int).toNat ≤ j → c'.m_children[j]? = exShown.m_children[j + 1]?) ∧
      c'.Content = exShown.Content ∧ c'.self = exShown.self :=
  ⟨⟨by decide, by decide, by decide⟩,
    removeChildAt_erases_in_range exShown 1 (by decide) (by decide) (by decide)⟩

theorem IndexOf_none_iff (l : List UIElement) (x : UIElement) :
    IndexOf l x = none ↔ ∀ u ∈ l, u.id ≠ x.id := by
  induction l with
  | nil => simp [IndexOf]
  | cons a as ih =>
    by_cases ha : a.id = x.id
    · simp [IndexOf, ha]
    · cases hi : IndexOf as x with
      | none => simpa [IndexOf, ha, hi] using ih.mp hi
      | some k =>
        simp only [IndexOf, ha, if_false, hi]
        constructor
        · intro h; simp at h
        · intro h
          have := ih.mpr (fun u hu => h u (by simp [hu]))
          simp [hi] at this

theorem IndexOf_of_first (l : List UIElement) (x : UIElement) (k : Nat) (u : UIElement)
    (hk : l[k]? = some u) (hu : u.id = x.id)
    (hlow : ∀ (j : Nat) (v : UIElement), j < k → l[j]? = some v → v.id ≠ x.id) :
    IndexOf l x = some k := by
  induction l generalizing k with
  | nil => simp at hk
  | cons a as ih =>
    cases k with
    | zero =>
      have hau : a = u := by simpa using hk
      subst hau
      simp [IndexOf, hu]
    | succ k =>
      have ha : a.id ≠ x.id := hlow 0 a (by omega) (by simp)
      have h2 := ih k (by simpa using hk)
        (fun j v hj hv => hlow (j + 1) v (by omega) (by simpa using hv))
      simp [IndexOf, ha, h2]

theorem IndexOf_lt (l : List UIElement) (x : UIElement) (k : Nat) (h : IndexOf l x = some k) :
    k < l.length := by
  induction l generalizing k with
  | nil => simp [IndexOf] at h
  | cons a as ih =>
    by_cases ha : a.id = x.id
    · have : k = 0 := by simpa [IndexOf, ha] using h.symm
      subst this; simp
    · cases hi : IndexOf as x with
      | none => simp [IndexOf, ha, hi] at h
      | some m =>
        have : m + 1 = k := by simpa [IndexOf, ha, hi] using h
        subst this
        have := ih m hi
        simp; omega

/-- C8: for every container state and all nodes old and new, replaceChild(old, new)
completes, keeps content and the length of children; when old occurs in children (by
object identity), new stands at the position of the first occurrence of old and every
other position is unchanged; when old does not occur, the container is unchanged. Nothing
is evicted: all other children stay, whatever their activity state. -/
theorem replaceChild_in_place (c : ScreenContainer) (oldChild newChild : UIElement) :
    ∃ c' : ScreenContainer, replaceChild c oldChild newChild = (.ok (), c') ∧
      c'.Content = c.Content ∧ c'.self = c.self ∧
      c'.m_children.length = c.m_children.length ∧
      (∀ (k : Nat) (u : UIElement), c.m_children[k]? = some u → u.id = oldChild.id →
        (∀ (j : Nat) (v : UIElement), j < k → c.m_children[j]? = some v →
          v.id ≠ oldChild.id) →
        c'.m_children[k]? = some newChild ∧
        ∀ j : Nat, j ≠ k → c'.m_children[j]? = c.m_children[j]?) ∧
      ((∀ u ∈ c.m_children, u.id ≠ oldChild.id) → c'.m_children = c.m_children) := by
  cases hi : IndexOf c.m_children oldChild with
  | none =>
    refine ⟨c, by simp only [replaceChild, hi], rfl, rfl, rfl, ?_, fun _ => rfl⟩
    intro k u hk hu _
    have := (IndexOf_none_iff _ _).mp hi u (List.getElem?_mem hk)
    exact absurd hu this
  | some i =>
    have hlt := IndexOf_lt _ _ _ hi
    refine ⟨{ c with m_children := c.m_children.set i newChild }, ?_, rfl, rfl, by simp, ?_, ?_⟩
    · simp only [replaceChild, hi, SetAt, hlt, if_true]
    · intro k u hk hu hlow
      have hki : i = k := by
        have := IndexOf_of_first _ _ k u hk hu hlow
        rw [hi] at this
        exact Option.some.inj this
      subst hki
      refine ⟨by simp [List.getElem?_set, hlt], ?_⟩
      intro j hj
      simp [List.getElem?_set, Ne.symm hj]
    · intro h
      have := (IndexOf_none_iff _ _).mpr h
      rw [hi] at this
      exact absurd this (by simp)

/-- C8 on a concrete state: the displayed ON_TOP child at position 1 is replaced by a node
that is no screen; the INACTIVE child at position 2 stays, content is not touched. -/
theorem replaceChild_in_place_witness :
    replaceChild exShown (exScreen 2 .ON_TOP) (exPlain 7)
      = (.ok (),
          { self := 0,
            m_children := [exScreen 1 .TRANSITIONING_OR_ACTIVE, exPlain 7, exScreen 3 .INACTIVE],
            Content := some (exScreen 2 .ON_TOP) }) ∧
    replaceChild exShown (exPlain 8) (exPlain 7) = (.ok (), exShown) ∧
    ∃ c' : ScreenContainer, replaceChild exShown (exScreen 2 .ON_TOP) (exPlain 7) = (.ok (), c') ∧
      c'.Content = exShown.Content ∧ c'.self = exShown.self ∧
      c'.m_children.length = exShown.m_children.length ∧
      (∀ (k : Nat) (u : UIElement), exShown.m_children[k]? = some u →
        u.id = (exScreen 2 .ON_TOP).id →
        (∀ (j : Nat) (v : UIElement), j < k → exShown.m_children[j]? = some v →
          v.id ≠ (exScreen 2 .ON_TOP).id) →
        c'.m_children[k]? = some (exPlain 7) ∧
        ∀ j : Nat, j ≠ k → c'.m_children[j]? = exShown.m_children[j]?) ∧
      ((∀ u ∈ exShown.m_children, u.id ≠ (exScreen 2 .ON_TOP).id) →
        c'.m_children = exShown.m_children) :=
  ⟨by decide, by decide, replaceChild_in_place exShown (exScreen 2 .ON_TOP) (exPlain 7)⟩

/-- C9: for every container state, removeAllChildren() completes and leaves children with
length 0 and content empty. -/
theorem removeAllChildren_clears (c : ScreenContainer) :
    ∃ c' : ScreenContainer, removeAllChildren c = (.ok (), c') ∧
      c'.m_children.length = 0 ∧ c'.Content = none ∧ c'.self = c.self :=
  ⟨{ c with Content := none, m_children := [] }, rfl, rfl, rfl, rfl⟩

/-- C10: on a container whose children all project to screens and none of which reports
ON_TOP, updateVisualTree() completes without failure and leaves the whole state, content
and children, as it was. -/
theorem updateVisualTree_without_onTop_unchanged (fuel : Nat) (c : ScreenContainer)
    (hsize : c.m_children.length < 2147483648) (hfuel : c.m_children.length < fuel)
    (hall : ∀ u ∈ c.m_children, u.isScreen = true)
    (hnone : ∀ u ∈ c.m_children, u.reports ActivityState.ON_TOP = false) :
    updateVisualTree fuel c = some (.ok (), c) := by
  rw [updateVisualTree_allScreens fuel c hsize hfuel hall, (firstOnTop_none_iff _).mpr hnone]

theorem updateVisualTree_without_onTop_unchanged_witness :
    (exNoOnTop.m_children.length < 2147483648 ∧ exNoOnTop.m_children.length < 3 ∧
      (∀ u ∈ exNoOnTop.m_children, u.isScreen = true) ∧
      (∀ u ∈ exNoOnTop.m_children, u.reports ActivityState.ON_TOP = false)) ∧
    updateVisualTree 3 exNoOnTop = some (.ok (), exNoOnTop) :=
  ⟨⟨by decide, by decide, by decide, by decide⟩,
    updateVisualTree_without_onTop_unchanged 3 exNoOnTop (by decide) (by decide) (by decide)
      (by decide)⟩

theorem firstOnTop_retained (l : List UIElement) : firstOnTop (retained l) = firstOnTop l := by
  induction l with
  | nil => rfl
  | cons a as ih =>
    unfold firstOnTop retained at *
    by_cases ht : a.reports ActivityState.ON_TOP = true
    · have hi : a.reports ActivityState.INACTIVE = false := by
        cases hb : a.reports ActivityState.INACTIVE with
        | false => rfl
        | true => exact absurd (reports_unique a _ _ ht hb) (by decide)
      simp [List.filter, hi, List.find?, ht]
    · by_cases hi : a.reports ActivityState.INACTIVE = true
      · simpa [List.filter, hi, List.find?, ht] using ih
      · simpa [List.filter, hi, List.find?, ht] using ih

theorem retained_retained (l : List UIElement) : retained (retained l) = retained l := by
  simp [retained]

theorem retained_length_le (l : List UIElement) : (retained l).length ≤ l.length :=
  List.length_filter_le _ _

theorem retained_allScreens (l : List UIElement) (hall : ∀ u ∈ l, u.isScreen = true) :
    ∀ u ∈ retained l, u.isScreen = true :=
  fun u hu => hall u (List.mem_of_mem_filter hu)

/-- On children that are all screens, a second visibility pass changes nothing. -/
theorem updateVisualTree_twice_allScreens (fuel : Nat) (c c' : ScreenContainer)
    (hsize : c.m_children.length < 2147483648) (hfuel : c.m_children.length < fuel)
    (hall : ∀ u ∈ c.m_children, u.isScreen = true)
    (h : updateVisualTree fuel c = some (.ok (), c')) :
    updateVisualTree fuel c' = some (.ok (), c') := by
  rw [updateVisualTree_allScreens fuel c hsize hfuel hall] at h
  cases hf : firstOnTop c.m_children with
  | none =>
    simp only [hf, Option.some.injEq, Prod.mk.injEq, true_and] at h
    subst h
    rw [updateVisualTree_allScreens fuel c hsize hfuel hall, hf]
  | some u =>
    simp only [hf, Option.some.injEq, Prod.mk.injEq, true_and] at h
    subst h
    have hl := retained_length_le c.m_children
    rw [updateVisualTree_allScreens fuel _ (by simp only; omega) (by simp only; omega)
      (retained_allScreens _ hall)]
    simp only [firstOnTop_retained, hf, retained_retained]

/-- C11: for every container state and every screen whose projection to a visual node
fails, addScreen(screen, index) completes without error for any index (and any fuel, no
loop is entered), leaves the container (children, content) as it was, and the screen
differs from the one passed in only by its owning-container back-reference, which is now
this container. -/
theorem addScreen_unprojectable_only_sets_backref (fuel : Nat) (c : ScreenContainer)
    (screen : Screen) (index : Int) (hproj : screen.try_as_UIElement = none) :
    ∃ s' : Screen, addScreen fuel c screen index = some (.ok (), c, s') ∧
      s' = screen.setScreenContainer c.self ∧
      s'.state.screenContainer = some c.self ∧
      s'.id = screen.id ∧ s'.getActivityState = screen.getActivityState ∧
      s'.uiElement = screen.uiElement := by
  have h2 : (screen.setScreenContainer c.self).try_as_UIElement = none := by
    simpa [Screen.try_as_UIElement, Screen.setScreenContainer] using hproj
  refine ⟨screen.setScreenContainer c.self, ?_, rfl, rfl, rfl, rfl, rfl⟩
  simp only [addScreen, h2]

theorem addScreen_unprojectable_only_sets_backref_witness :
    exBareScreen.try_as_UIElement = none ∧
    ∃ s' : Screen, addScreen 0 exShown exBareScreen 3 = some (.ok (), exShown, s') ∧
      s' = exBareScreen.setScreenContainer exShown.self ∧
      s'.state.screenContainer = some exShown.self ∧
      s'.id = exBareScreen.id ∧ s'.getActivityState = exBareScreen.getActivityState ∧
      s'.uiElement = exBareScreen.uiElement :=
  ⟨by decide, addScreen_unprojectable_only_sets_backref 0 exShown exBareScreen 3 (by decide)⟩

/-- C12 (as stated, refuted): children [A(INACTIVE), B(ON_TOP)], all screens, nothing
displayed. removeChildAt(0) is in range and leaves [B] with empty content; a visibility
pass run on that state would display B, so the pass was not run. replaceChild of the
present child A by an INACTIVE screen C leaves [C, B]; a pass would evict C and display B. -/
theorem removeChildAt_replaceChild_skip_visibility_pass :
    (∀ u ∈ exInactiveThenOnTop.m_children, u.isScreen = true) ∧
    removeChildAt exInactiveThenOnTop 0
      = (.ok (), { self := 0, m_children := [exScreen 2 .ON_TOP], Content := none }) ∧
    updateVisualTree 3 { self := 0, m_children := [exScreen 2 .ON_TOP], Content := none }
      = some (.ok (),
          { self := 0, m_children := [exScreen 2 .ON_TOP], Content := some (exScreen 2 .ON_TOP) }) ∧
    replaceChild exInactiveThenOnTop (exScreen 1 .INACTIVE) (exScreen 3 .INACTIVE)
      = (.ok (),
          { self := 0, m_children := [exScreen 3 .INACTIVE, exScreen 2 .ON_TOP], Content := none }) ∧
    updateVisualTree 3
        { self := 0, m_children := [exScreen 3 .INACTIVE, exScreen 2 .ON_TOP], Content := none }
      = some (.ok (),
          { self := 0, m_children := [exScreen 2 .ON_TOP], Content := some (exScreen 2 .ON_TOP) }) := by
  decide

/-- C12 (amended): for every starting state whose children are screens, after addScreen
with a projectable screen and after removeAllChildren the visibility pass has been run:
running updateVisualTree() on the state the operation left changes nothing. -/
theorem addScreen_removeAllChildren_leave_pass_fixpoint (fuel : Nat) (c : ScreenContainer)
    (screen : Screen) (index : Int)
    (hsize : c.m_children.length + 1 < 2147483648) (hfuel : c.m_children.length + 1 < fuel)
    (hall : ∀ u ∈ c.m_children, u.isScreen = true)
    (hproj : screen.try_as_UIElement.isSome = true) :
    (∃ (c' : ScreenContainer) (s' : Screen),
      addScreen fuel c screen index = some (.ok (), c', s') ∧
      updateVisualTree fuel c' = some (.ok (), c')) ∧
    (∃ c' : ScreenContainer, removeAllChildren c = (.ok (), c') ∧
      updateVisualTree fuel c' = some (.ok (), c')) := by
  constructor
  · have hproj2 : (screen.setScreenContainer c.self).try_as_UIElement.isSome = true := by
      simpa [Screen.try_as_UIElement, Screen.setScreenContainer] using hproj
    obtain ⟨v, hv⟩ := Option.isSome_iff_exists.mp hproj2
    obtain ⟨hvs, _, _⟩ := isScreen_of_try_as _ v hv
    have hall1 : ∀ u ∈ c.m_children ++ [v], u.isScreen = true := by
      intro u hu
      rcases List.mem_append.mp hu with h | h
      · exact hall u h
      · simp only [List.mem_singleton] at h; subst h; exact hvs
    have hupd := updateVisualTree_allScreens fuel
      { c with m_children := c.m_children ++ [v], Content := some v }
      (by simpa using hsize) (by simpa using hfuel) hall1
    obtain ⟨c', hc'⟩ : ∃ c', updateVisualTree fuel
        { c with m_children := c.m_children ++ [v], Content := some v } = some (.ok (), c') :=
      ⟨_, hupd⟩
    refine ⟨c', screen.setScreenContainer c.self, ?_, ?_⟩
    · simp only [addScreen, hv, Append, hc']
    · exact updateVisualTree_twice_allScreens fuel
        { c with m_children := c.m_children ++ [v], Content := some v } c'
        (by simpa using hsize) (by simpa using hfuel) hall1 hc'
  · obtain ⟨f, rfl⟩ : ∃ f, fuel = f + 1 := ⟨fuel - 1, by omega⟩
    exact ⟨{ c with Content := none, m_children := [] }, rfl, rfl⟩

theorem addScreen_removeAllChildren_leave_pass_fixpoint_witness :
    (exInactiveThenOnTop.m_children.length + 1 < 2147483648 ∧
      exInactiveThenOnTop.m_children.length + 1 < 4 ∧
      (∀ u ∈ exInactiveThenOnTop.m_children, u.isScreen = true) ∧
      exInactiveScreen.try_as_UIElement.isSome = true) ∧
    ((∃ (c' : ScreenContainer) (s' : Screen),
      addScreen 4 exInactiveThenOnTop exInactiveScreen 0 = some (.ok (), c', s') ∧
      updateVisualTree 4 c' = some (.ok (), c')) ∧
    (∃ c' : ScreenContainer, removeAllChildren exInactiveThenOnTop = (.ok (), c') ∧
      updateVisualTree 4 c' = some (.ok (), c'))) :=
  ⟨⟨by decide, by decide, by decide, by decide⟩,
    addScreen_removeAllChildren_leave_pass_fixpoint 4 exInactiveThenOnTop exInactiveScreen 0
      (by decide) (by decide) (by decide) (by decide)⟩

theorem GetAt_mem (l : List UIElement) (n : Nat) (u : UIElement) (h : GetAt l n = .ok u) :
    u ∈ l := by
  unfold GetAt at h
  cases hg : l[n]? with
  | none => simp [hg] at h
  | some w =>
    simp only [hg, Except.ok.injEq] at h
    subst h
    exact List.getElem?_mem hg

/-- Whatever its outcome, removeChildAt keeps the address and the content and adds no
child. -/
theorem removeChildAt_frame (c c' : ScreenContainer) (index : Int) (r : Except Fault Unit)
    (h : removeChildAt c index = (r, c')) :
    c'.self = c.self ∧ c'.Content = c.Content ∧ ∀ v ∈ c'.m_children, v ∈ c.m_children := by
  unfold removeChildAt at h
  cases hg : GetAt c.m_children (toUInt32 index) with
  | error e =>
    simp only [hg, Prod.mk.injEq] at h
    obtain ⟨_, rfl⟩ := h
    exact ⟨rfl, rfl, fun v hv => hv⟩
  | ok child =>
    by_cases hlt : toUInt32 index < c.m_children.length
    · simp only [hg, RemoveAt, hlt, if_true, Prod.mk.injEq] at h
      obtain ⟨_, rfl⟩ := h
      exact ⟨rfl, rfl, fun v hv => List.mem_of_mem_eraseIdx hv⟩
    · simp only [hg, RemoveAt, hlt, if_false, Prod.mk.injEq] at h
      obtain ⟨_, rfl⟩ := h
      exact ⟨rfl, rfl, fun v hv => hv⟩

/-- Whatever its outcome, the loop of getTopScreen returns the state it was given, and a
screen it returns is the projection of a child. -/
theorem getTopScreenLoop_frame (c : ScreenContainer) :
    ∀ (fuel : Nat) (i : Int) (r : Except Fault (Option Screen)) (c' : ScreenContainer),
      getTopScreenLoop c fuel i = some (r, c') →
      c' = c ∧ ∀ s, r = .ok (some s) →
        ∃ u ∈ c.m_children, u.try_as_Screen = some s ∧ u.reports ActivityState.ON_TOP = true := by
  intro fuel
  induction fuel with
  | zero => intro i r c' h; simp [getTopScreenLoop] at h
  | succ f ih =>
    intro i r c' h
    rw [getTopScreenLoop] at h
    split at h
    · cases hg : GetAt c.m_children (toUInt32 i) with
      | error e =>
        simp only [hg, Option.some.injEq, Prod.mk.injEq] at h
        obtain ⟨rfl, rfl⟩ := h
        exact ⟨rfl, fun s hs => by simp at hs⟩
      | ok child =>
        simp only [hg] at h
        cases hs : child.try_as_Screen with
        | none =>
          simp only [hs, Option.some.injEq, Prod.mk.injEq] at h
          obtain ⟨rfl, rfl⟩ := h
          exact ⟨rfl, fun s hs => by simp at hs⟩
        | some screen =>
          by_cases ht : screen.getActivityState = ActivityState.ON_TOP
          · simp only [hs, ht, if_true, Option.some.injEq, Prod.mk.injEq] at h
            obtain ⟨rfl, rfl⟩ := h
            refine ⟨rfl, fun s hs' => ?_⟩
            simp only [Except.ok.injEq, Option.some.injEq] at hs'
            subst hs'
            exact ⟨child, GetAt_mem _ _ _ hg, hs, by simp [UIElement.reports, hs, ht]⟩
          · simp only [hs, ht, if_false] at h
            exact ih _ r c' h
    · simp only [Option.some.injEq, Prod.mk.injEq] at h
      obtain ⟨rfl, rfl⟩ := h
      exact ⟨rfl, fun s hs => by simp at hs⟩

/-- Whatever its outcome, the eviction loop keeps the address and the content and adds no
child. -/
theorem evictLoop_frame :
    ∀ (fuel : Nat) (c : ScreenContainer) (i : Int) (r : Except Fault Unit)
      (c' : ScreenContainer), evictLoop fuel c i = some (r, c') →
      c'.self = c.self ∧ c'.Content = c.Content ∧ ∀ v ∈ c'.m_children, v ∈ c.m_children := by
  intro fuel
  induction fuel with
  | zero => intro c i r c' h; simp [evictLoop] at h
  | succ f ih =>
    intro c i r c' h
    rw [evictLoop] at h
    split at h
    · cases hg : GetAt c.m_children (toUInt32 i) with
      | error e =>
        simp only [hg, Option.some.injEq, Prod.mk.injEq] at h
        obtain ⟨_, rfl⟩ := h
        exact ⟨rfl, rfl, fun v hv => hv⟩
      | ok child =>
        simp only [hg] at h
        cases hs : child.try_as_Screen with
        | none =>
          simp only [hs, Option.some.injEq, Prod.mk.injEq] at h
          obtain ⟨_, rfl⟩ := h
          exact ⟨rfl, rfl, fun v hv => hv⟩
        | some screen =>
          simp only [hs] at h
          split at h
          · cases hr : removeChildAt c i with
            | mk r0 c0 =>
              obtain ⟨h1, h2, h3⟩ := removeChildAt_frame c c0 i r0 hr
              rw [hr] at h
              cases r0 with
              | error e =>
                simp only [Option.some.injEq, Prod.mk.injEq] at h
                obtain ⟨_, rfl⟩ := h
                exact ⟨h1, h2, h3⟩
              | ok x =>
                cases x
                simp only at h
                obtain ⟨k1, k2, k3⟩ := ih _ _ r c' h
                exact ⟨k1.trans h1, k2.trans h2, fun v hv => h3 v (k3 v hv)⟩
          · exact ih _ _ r c' h
    · simp only [Option.some.injEq, Prod.mk.injEq] at h
      obtain ⟨_, rfl⟩ := h
      exact ⟨rfl, rfl, fun v hv => hv⟩

/-- Whatever its outcome, updateVisualTree keeps the address, adds no child, and leaves
in the content slot what was there or one of the children. -/
theorem updateVisualTree_frame (fuel : Nat) (c c' : ScreenContainer) (r : Except Fault Unit)
    (h : updateVisualTree fuel c = some (r, c')) :
    c'.self = c.self ∧ (∀ v ∈ c'.m_children, v ∈ c.m_children) ∧
      (c'.Content = c.Content ∨
        ∃ u ∈ c.m_children, c'.Content = some u ∧ u.reports ActivityState.ON_TOP = true) := by
  unfold updateVisualTree getTopScreen at h
  cases hg : getTopScreenLoop c fuel 0 with
  | none => simp [hg] at h
  | some p =>
    obtain ⟨r0, c0⟩ := p
    obtain ⟨hc0, htop⟩ := getTopScreenLoop_frame c fuel 0 r0 c0 hg
    subst hc0
    rw [hg] at h
    cases r0 with
    | error e =>
      simp only [Option.some.injEq, Prod.mk.injEq] at h
      obtain ⟨_, rfl⟩ := h
      exact ⟨rfl, fun v hv => hv, Or.inl rfl⟩
    | ok t =>
      cases t with
      | none =>
        simp only [Option.some.injEq, Prod.mk.injEq] at h
        obtain ⟨_, rfl⟩ := h
        exact ⟨rfl, fun v hv => hv, Or.inl rfl⟩
      | some topScreen =>
        obtain ⟨u, hu, hus, hut⟩ := htop topScreen rfl
        have hback := try_as_roundtrip u topScreen hus
        simp only [hback] at h
        obtain ⟨k1, k2, k3⟩ := evictLoop_frame fuel _ 0 r c' h
        exact ⟨k1, k3, Or.inr ⟨u, hu, k2, hut⟩⟩


/-- Whatever its outcome, replaceChild keeps the address and the content, and a child it
leaves was a child before or is the new node. -/
theorem replaceChild_frame (c c' : ScreenContainer) (oldChild newChild : UIElement)
    (r : Except Fault Unit) (h : replaceChild c oldChild newChild = (r, c')) :
    c'.self = c.self ∧ c'.Content = c.Content ∧
      ∀ v ∈ c'.m_children, v ∈ c.m_children ∨ newChild = v := by
  unfold replaceChild at h
  cases hi : IndexOf c.m_children oldChild with
  | none =>
    simp only [hi, Prod.mk.injEq] at h
    obtain ⟨_, rfl⟩ := h
    exact ⟨rfl, rfl, fun v hv => Or.inl hv⟩
  | some k =>
    by_cases hlt : k < c.m_children.length
    · simp only [hi, SetAt, hlt, if_true, Prod.mk.injEq] at h
      obtain ⟨_, rfl⟩ := h
      refine ⟨rfl, rfl, fun v hv => ?_⟩
      rcases List.mem_or_eq_of_mem_set hv with h1 | h1
      · exact Or.inl h1
      · exact Or.inr h1.symm
    · simp only [hi, SetAt, hlt, if_false, Prod.mk.injEq] at h
      obtain ⟨_, rfl⟩ := h
      exact ⟨rfl, rfl, fun v hv => Or.inl hv⟩

/-- One call, whatever its outcome: the address stays; a child afterwards was a child
before, or the call appended it, or the call installed it; the content afterwards is
empty, or what it was, or the node the call appended, or an ON_TOP node that was a child
or that the call appended. -/
theorem Op.apply_frame (fuel : Nat) (c c' : ScreenContainer) (op : Op)
    (r : Except Fault Unit) (h : op.apply fuel c = some (r, c')) :
    c'.self = c.self ∧
    (∀ v ∈ c'.m_children,
      v ∈ c.m_children ∨ op.appends c.self v = true ∨ op.installs v = true) ∧
    (c'.Content = none ∨ c'.Content = c.Content ∨
      ∃ v, c'.Content = some v ∧ (op.appends c.self v = true ∨
        (v ∈ c.m_children ∧ v.reports ActivityState.ON_TOP = true))) := by
  cases op with
  | addScreen screen index =>
    simp only [Op.apply, RNScreens.addScreen] at h
    cases hv : (screen.setScreenContainer c.self).try_as_UIElement with
    | none =>
      simp only [hv, Option.some.injEq, Prod.mk.injEq] at h
      obtain ⟨_, rfl⟩ := h
      exact ⟨rfl, fun v hv => Or.inl hv, Or.inr (Or.inl rfl)⟩
    | some w =>
      simp only [hv, Append] at h
      cases hu : RNScreens.updateVisualTree fuel
          { c with m_children := c.m_children ++ [w], Content := some w } with
      | none => simp [hu] at h
      | some p =>
        obtain ⟨r1, c1⟩ := p
        simp only [hu, Option.some.injEq, Prod.mk.injEq] at h
        obtain ⟨rfl, rfl⟩ := h
        obtain ⟨k1, k2, k3⟩ := updateVisualTree_frame fuel _ _ _ hu
        have happ : (Op.addScreen screen index).appends c.self w = true := by
          simp [Op.appends, hv]
        refine ⟨k1, fun v hv' => ?_, ?_⟩
        · rcases List.mem_append.mp (k2 v hv') with h1 | h1
          · exact Or.inl h1
          · simp only [List.mem_singleton] at h1
            subst h1
            exact Or.inr (Or.inl happ)
        · rcases k3 with h1 | ⟨u, hu1, hu2, hu3⟩
          · exact Or.inr (Or.inr ⟨w, h1, Or.inl happ⟩)
          · rcases List.mem_append.mp hu1 with h1 | h1
            · exact Or.inr (Or.inr ⟨u, hu2, Or.inr ⟨h1, hu3⟩⟩)
            · simp only [List.mem_singleton] at h1
              subst h1
              exact Or.inr (Or.inr ⟨u, hu2, Or.inl happ⟩)
  | removeAllChildren =>
    simp only [Op.apply, RNScreens.removeAllChildren, Clear, Option.some.injEq,
      Prod.mk.injEq] at h
    obtain ⟨_, rfl⟩ := h
    exact ⟨rfl, fun v hv => by simp at hv, Or.inl rfl⟩
  | removeChildAt index =>
    simp only [Op.apply, Option.some.injEq] at h
    obtain ⟨k1, k2, k3⟩ := removeChildAt_frame c c' index r h
    exact ⟨k1, fun v hv => Or.inl (k3 v hv), Or.inr (Or.inl k2)⟩
  | replaceChild oldChild newChild =>
    simp only [Op.apply, Option.some.injEq] at h
    obtain ⟨k1, k2, k3⟩ := replaceChild_frame c c' oldChild newChild r h
    refine ⟨k1, fun v hv => ?_, Or.inr (Or.inl k2)⟩
    rcases k3 v hv with h1 | h1
    · exact Or.inl h1
    · exact Or.inr (Or.inr (by simp [Op.installs, h1]))
  | updateVisualTree =>
    simp only [Op.apply] at h
    obtain ⟨k1, k2, k3⟩ := updateVisualTree_frame fuel c c' r h
    refine ⟨k1, fun v hv => Or.inl (k2 v hv), ?_⟩
    rcases k3 with h1 | ⟨u, hu1, hu2, hu3⟩
    · exact Or.inr (Or.inl h1)
    · exact Or.inr (Or.inr ⟨u, hu2, Or.inr ⟨hu1, hu3⟩⟩)

/-- A sequence of calls followed by one more call. -/
theorem run_append (fuel : Nat) (ops1 ops2 : List Op) :
    ∀ c : ScreenContainer,
      run fuel c (ops1 ++ ops2) = (run fuel c ops1).bind (fun c1 => run fuel c1 ops2) := by
  induction ops1 with
  | nil => intro c; rfl
  | cons op ops ih =>
    intro c
    simp only [List.cons_append, run]
    cases ha : op.apply fuel c with
    | none => rfl
    | some p =>
      obtain ⟨r, c1⟩ := p
      cases r with
      | ok x => cases x; exact ih c1
      | error e =>
        cases e with
        | outOfBounds => exact ih c1
        | nullDereference => rfl

/-- The last call of a sequence that yields a state was applied to a state the calls
before it yield. -/
theorem run_snoc (fuel : Nat) (ops : List Op) (op : Op) (c0 c2 : ScreenContainer)
    (h : run fuel c0 (ops ++ [op]) = some c2) :
    ∃ (c1 : ScreenContainer) (r : Except Fault Unit),
      run fuel c0 ops = some c1 ∧ op.apply fuel c1 = some (r, c2) := by
  rw [run_append] at h
  cases h1 : run fuel c0 ops with
  | none => simp [h1] at h
  | some c1 =>
    simp only [h1, Option.bind, run] at h
    refine ⟨c1, ?_⟩
    cases ha : op.apply fuel c1 with
    | none => simp [ha] at h
    | some p =>
      obtain ⟨r, c3⟩ := p
      cases r with
      | ok x =>
        cases x
        simp only [ha, Option.some.injEq] at h
        exact ⟨_, rfl, by rw [h]⟩
      | error e =>
        cases e with
        | outOfBounds =>
          simp only [ha, Option.some.injEq] at h
          exact ⟨_, rfl, by rw [h]⟩
        | nullDereference => simp [ha] at h

theorem getElem?_snoc_left (ops : List Op) (op x : Op) (k : Nat) (h : ops[k]? = some x) :
    (ops ++ [op])[k]? = some x := by
  have hk : k < ops.length := by
    by_contra hn
    rw [List.getElem?_eq_none (by omega)] at h
    exact absurd h (by simp)
  rw [List.getElem?_append_left hk]; exact h

/-- Provenance in a state that a sequence of calls on a new container yields: every child
was appended by an addScreen of the sequence or installed by a replaceChild of it; the
content is empty, or was appended by an addScreen, or is an ON_TOP node installed by a
replaceChild. -/
theorem run_provenance (fuel self : Nat) (ops : List Op) :
    ∀ c : ScreenContainer, run fuel (ScreenContainer.new self) ops = some c →
      c.self = self ∧
      (∀ v ∈ c.m_children, ∃ (k : Nat) (op : Op), ops[k]? = some op ∧
        (op.appends self v = true ∨ op.installs v = true)) ∧
      (c.Content = none ∨ ∃ v, c.Content = some v ∧
        ((∃ (k : Nat) (op : Op), ops[k]? = some op ∧ op.appends self v = true) ∨
          (v.reports ActivityState.ON_TOP = true ∧
            ∃ (k : Nat) (op : Op), ops[k]? = some op ∧ op.installs v = true))) := by
  induction ops using List.reverseRecOn with
  | nil =>
    intro c h
    simp only [run, Option.some.injEq] at h
    subst h
    exact ⟨rfl, fun v hv => by simp [ScreenContainer.new] at hv, Or.inl rfl⟩
  | append_singleton ops op ih =>
    intro c2 h
    obtain ⟨c1, r, h1, h2⟩ := run_snoc fuel ops op _ c2 h
    obtain ⟨i1, i2, i3⟩ := ih c1 h1
    obtain ⟨f1, f2, f3⟩ := Op.apply_frame fuel c1 c2 op r h2
    rw [i1] at f1 f2 f3
    have hlast : (ops ++ [op])[ops.length]? = some op := by simp
    have hchild : ∀ v, v ∈ c1.m_children ∨ op.appends self v = true ∨ op.installs v = true →
        ∃ (k : Nat) (x : Op), (ops ++ [op])[k]? = some x ∧
          (x.appends self v = true ∨ x.installs v = true) := by
      intro v hv
      rcases hv with h3 | h3 | h3
      · obtain ⟨k, x, hk, hx⟩ := i2 v h3
        exact ⟨k, x, getElem?_snoc_left ops op x k hk, hx⟩
      · exact ⟨ops.length, op, hlast, Or.inl h3⟩
      · exact ⟨ops.length, op, hlast, Or.inr h3⟩
    refine ⟨f1, fun v hv => hchild v (f2 v hv), ?_⟩
    rcases f3 with h3 | h3 | ⟨v, hv1, hv2⟩
    · exact Or.inl h3
    · rw [h3]
      rcases i3 with h4 | ⟨v, hv1, hv2⟩
      · exact Or.inl h4
      · refine Or.inr ⟨v, hv1, ?_⟩
        rcases hv2 with ⟨k, x, hk, hx⟩ | ⟨ht, k, x, hk, hx⟩
        · exact Or.inl ⟨k, x, getElem?_snoc_left ops op x k hk, hx⟩
        · exact Or.inr ⟨ht, k, x, getElem?_snoc_left ops op x k hk, hx⟩
    · refine Or.inr ⟨v, hv1, ?_⟩
      rcases hv2 with h4 | ⟨h4, ht⟩
      · exact Or.inl ⟨ops.length, op, hlast, h4⟩
      · obtain ⟨k, x, hk, hx⟩ := i2 v h4
        rcases hx with hx | hx
        · exact Or.inl ⟨k, x, getElem?_snoc_left ops op x k hk, hx⟩
        · exact Or.inr ⟨ht, k, x, getElem?_snoc_left ops op x k hk, hx⟩

/-- C13 (as stated, refuted): a new container at address 0 after addScreen of a
projectable screen that is neither ON_TOP nor INACTIVE. The content is the node of that
screen: it is not empty, no child reports ON_TOP, and the sequence has no replaceChild.
Also, after addScreen of an ON_TOP screen and removeChildAt(0), the content is still the
node of that screen although there is no child left. -/
theorem content_shows_added_screen_not_onTop :
    run 3 (ScreenContainer.new 0) exAddThenRemove
      = some { self := 0,
               m_children := [],
               Content := some { id := 1, screen := some { activityState := .ON_TOP,
                                                           screenContainer := some 0 } } } ∧
    run 3 (ScreenContainer.new 0) exAddActive
      = some { self := 0,
               m_children := [{ id := 2, screen := some { activityState := .TRANSITIONING_OR_ACTIVE,
                                                          screenContainer := some 0 } }],
               Content := some { id := 2, screen := some { activityState := .TRANSITIONING_OR_ACTIVE,
                                                           screenContainer := some 0 } } } ∧
    (∀ u ∈ [({ id := 2, screen := some { activityState := .TRANSITIONING_OR_ACTIVE,
                                           screenContainer := some 0 } } : UIElement)],
      u.reports ActivityState.ON_TOP = false) ∧
    (exAddActive.all fun op => !op.installs
      { id := 2, screen := some { activityState := .TRANSITIONING_OR_ACTIVE,
                                  screenContainer := some 0 } }) = true := by
  decide

theorem lastAppended_snoc (self : Nat) (ops : List Op) (op : Op) :
    lastAppended self (ops ++ [op])
      = match op.appended self with
        | some v => some v
        | none => lastAppended self ops := by
  unfold lastAppended
  rw [List.filterMap_append]
  cases h : op.appended self with
  | none => simp [List.filterMap, h]
  | some v => simp [List.filterMap, h]

theorem appends_of_appended (self : Nat) (op : Op) (v : UIElement)
    (h : op.appended self = some v) : op.appends self v = true := by
  cases op with
  | addScreen screen index => simpa [Op.appended, Op.appends] using h
  | removeAllChildren => simp [Op.appended] at h
  | removeChildAt index => simp [Op.appended] at h
  | replaceChild o n => simp [Op.appended] at h
  | updateVisualTree => simp [Op.appended] at h

/-- One call, whatever its outcome: the content afterwards is empty, or it is what it was
and the call appended nothing, or it is the node the call appended, or it is an ON_TOP
node that was a child or that the call appended. -/
theorem Op.apply_content (fuel : Nat) (c c' : ScreenContainer) (op : Op)
    (r : Except Fault Unit) (h : op.apply fuel c = some (r, c')) :
    c'.Content = none ∨ (c'.Content = c.Content ∧ op.appended c.self = none) ∨
      ∃ v, c'.Content = some v ∧ (op.appended c.self = some v ∨
        (v.reports ActivityState.ON_TOP = true ∧
          (v ∈ c.m_children ∨ op.appended c.self = some v))) := by
  cases op with
  | addScreen screen index =>
    simp only [Op.apply, RNScreens.addScreen] at h
    cases hv : (screen.setScreenContainer c.self).try_as_UIElement with
    | none =>
      simp only [hv, Option.some.injEq, Prod.mk.injEq] at h
      obtain ⟨_, rfl⟩ := h
      exact Or.inr (Or.inl ⟨rfl, hv⟩)
    | some w =>
      simp only [hv, Append] at h
      cases hu : RNScreens.updateVisualTree fuel
          { c with m_children := c.m_children ++ [w], Content := some w } with
      | none => simp [hu] at h
      | some p =>
        obtain ⟨r1, c1⟩ := p
        simp only [hu, Option.some.injEq, Prod.mk.injEq] at h
        obtain ⟨rfl, rfl⟩ := h
        obtain ⟨_, _, k3⟩ := updateVisualTree_frame fuel _ _ _ hu
        have happ : (Op.addScreen screen index).appended c.self = some w := hv
        rcases k3 with h1 | ⟨u, hu1, hu2, hu3⟩
        · exact Or.inr (Or.inr ⟨w, h1, Or.inl happ⟩)
        · rcases List.mem_append.mp hu1 with h1 | h1
          · exact Or.inr (Or.inr ⟨u, hu2, Or.inr ⟨hu3, Or.inl h1⟩⟩)
          · simp only [List.mem_singleton] at h1
            subst h1
            exact Or.inr (Or.inr ⟨u, hu2, Or.inl happ⟩)
  | removeAllChildren =>
    simp only [Op.apply, RNScreens.removeAllChildren, Clear, Option.some.injEq,
      Prod.mk.injEq] at h
    obtain ⟨_, rfl⟩ := h
    exact Or.inl rfl
  | removeChildAt index =>
    simp only [Op.apply, Option.some.injEq] at h
    obtain ⟨_, k2, _⟩ := removeChildAt_frame c c' index r h
    exact Or.inr (Or.inl ⟨k2, rfl⟩)
  | replaceChild oldChild newChild =>
    simp only [Op.apply, Option.some.injEq] at h
    obtain ⟨_, k2, _⟩ := replaceChild_frame c c' oldChild newChild r h
    exact Or.inr (Or.inl ⟨k2, rfl⟩)
  | updateVisualTree =>
    simp only [Op.apply] at h
    obtain ⟨_, _, k3⟩ := updateVisualTree_frame fuel c c' r h
    rcases k3 with h1 | ⟨u, hu1, hu2, hu3⟩
    · exact Or.inr (Or.inl ⟨h1, rfl⟩)
    · exact Or.inr (Or.inr ⟨u, hu2, Or.inr ⟨hu3, Or.inl hu1⟩⟩)

/-- C13 (amended): in every state that a sequence of addScreen, removeAllChildren,
removeChildAt, replaceChild and updateVisualTree calls on a new container yields
(activity states fixed), the content is empty, or the visual node appended by the most
recent addScreen call that appended one, or a node that reports ON_TOP and that an earlier
addScreen call appended or an earlier replaceChild call installed as its new node. -/
theorem content_is_empty_last_appended_or_onTop (fuel self : Nat) (ops : List Op) :
    ∀ c : ScreenContainer, run fuel (ScreenContainer.new self) ops = some c →
      c.Content = none ∨ ∃ v, c.Content = some v ∧
        (lastAppended self ops = some v ∨
          (v.reports ActivityState.ON_TOP = true ∧
            ((∃ (k : Nat) (op : Op), ops[k]? = some op ∧ op.appends self v = true) ∨
              (∃ (k : Nat) (op : Op), ops[k]? = some op ∧ op.installs v = true)))) := by
  induction ops using List.reverseRecOn with
  | nil =>
    intro c h
    simp only [run, Option.some.injEq] at h
    subst h
    exact Or.inl rfl
  | append_singleton ops op ih =>
    intro c2 h
    obtain ⟨c1, r, h1, h2⟩ := run_snoc fuel ops op _ c2 h
    obtain ⟨i1, i2, _⟩ := run_provenance fuel self ops c1 h1
    have f3 := Op.apply_content fuel c1 c2 op r h2
    rw [i1] at f3
    have hlast : (ops ++ [op])[ops.length]? = some op := by simp
    rcases f3 with h3 | ⟨h3, h4⟩ | ⟨v, hv1, hv2⟩
    · exact Or.inl h3
    · rw [h3]
      rcases ih c1 h1 with h5 | ⟨v, hv1, hv2⟩
      · exact Or.inl h5
      · refine Or.inr ⟨v, hv1, ?_⟩
        rcases hv2 with h6 | ⟨ht, hp⟩
        · left
          rw [lastAppended_snoc, h4]
          exact h6
        · right
          refine ⟨ht, ?_⟩
          rcases hp with ⟨k, x, hk, hx⟩ | ⟨k, x, hk, hx⟩
          · exact Or.inl ⟨k, x, getElem?_snoc_left ops op x k hk, hx⟩
          · exact Or.inr ⟨k, x, getElem?_snoc_left ops op x k hk, hx⟩
    · refine Or.inr ⟨v, hv1, ?_⟩
      have hnew : op.appended self = some v → lastAppended self (ops ++ [op]) = some v := by
        intro h5
        rw [lastAppended_snoc, h5]
      rcases hv2 with h5 | ⟨ht, h5 | h5⟩
      · exact Or.inl (hnew h5)
      · right
        refine ⟨ht, ?_⟩
        obtain ⟨k, x, hk, hx⟩ := i2 v h5
        rcases hx with hx | hx
        · exact Or.inl ⟨k, x, getElem?_snoc_left ops op x k hk, hx⟩
        · exact Or.inr ⟨k, x, getElem?_snoc_left ops op x k hk, hx⟩
      · exact Or.inl (hnew h5)

theorem content_is_empty_last_appended_or_onTop_witness :
    (run 5 (ScreenContainer.new 0) exSession
      = some { self := 0,
               m_children := [exScreen 8 .ON_TOP],
               Content := some (exScreen 8 .ON_TOP) } ∧
    lastAppended 0 exSession
      = some { id := 2, screen := some { activityState := .TRANSITIONING_OR_ACTIVE,
                                         screenContainer := some 0 } } ∧
    run 5 (ScreenContainer.new 0) exAddTwoActive
      = some { self := 0,
               m_children :=
                 [{ id := 2, screen := some { activityState := .TRANSITIONING_OR_ACTIVE,
                                              screenContainer := some 0 } },
                  { id := 3, screen := some { activityState := .TRANSITIONING_OR_ACTIVE,
                                              screenContainer := some 0 } }],
               Content := some { id := 3, screen := some { activityState := .TRANSITIONING_OR_ACTIVE,
                                                           screenContainer := some 0 } } } ∧
    lastAppended 0 exAddTwoActive
      = some { id := 3, screen := some { activityState := .TRANSITIONING_OR_ACTIVE,
                                         screenContainer := some 0 } }) ∧
    ((some (exScreen 8 .ON_TOP) : Option UIElement) = none ∨
      ∃ v, some (exScreen 8 .ON_TOP) = some v ∧
        (lastAppended 0 exSession = some v ∨
          (v.reports ActivityState.ON_TOP = true ∧
            ((∃ (k : Nat) (op : Op), exSession[k]? = some op ∧ op.appends 0 v = true) ∨
              (∃ (k : Nat) (op : Op), exSession[k]? = some op ∧ op.installs v = true))))) :=
  ⟨⟨by decide, by decide, by decide, by decide⟩,
    content_is_empty_last_appended_or_onTop 5 0 exSession
      { self := 0, m_children := [exScreen 8 .ON_TOP], Content := some (exScreen 8 .ON_TOP) }
      (by decide)⟩

theorem refresh_id (id : Nat) (state : ScreenState) (u : UIElement) :
    (u.refresh id state).id = u.id := by
  unfold UIElement.refresh
  split
  · split <;> rfl
  · rfl

theorem refresh_children_ids (id : Nat) (state : ScreenState) (c : ScreenContainer) :
    ∀ u ∈ (c.refresh id state).m_children, ∃ w ∈ c.m_children, w.id = u.id := by
  intro u hu
  simp only [ScreenContainer.refresh, List.mem_map] at hu
  obtain ⟨w, hw, rfl⟩ := hu
  exact ⟨w, hw, (refresh_id id state w).symm⟩

theorem sync_children_ids (op : Op) (c : ScreenContainer) :
    ∀ u ∈ (op.sync c).m_children, ∃ w ∈ c.m_children, w.id = u.id := by
  intro u hu
  cases op with
  | addScreen screen index => exact refresh_children_ids _ _ c u hu
  | replaceChild o n =>
    simp only [Op.sync] at hu
    cases hn : n.screen with
    | none => rw [hn] at hu; exact ⟨u, hu, rfl⟩
    | some st => rw [hn] at hu; exact refresh_children_ids _ _ c u hu
  | removeAllChildren => exact ⟨u, hu, rfl⟩
  | removeChildAt index => exact ⟨u, hu, rfl⟩
  | updateVisualTree => exact ⟨u, hu, rfl⟩

theorem runLive_append (fuel : Nat) (evs1 evs2 : List Event) :
    ∀ c : ScreenContainer,
      runLive fuel c (evs1 ++ evs2)
        = (runLive fuel c evs1).bind (fun c1 => runLive fuel c1 evs2) := by
  induction evs1 with
  | nil => intro c; rfl
  | cons ev evs ih =>
    intro c
    cases ev with
    | change id state =>
      simp only [List.cons_append, runLive]
      exact ih _
    | call op =>
      simp only [List.cons_append, runLive]
      cases ha : op.apply fuel (op.sync c) with
      | none => rfl
      | some p =>
        obtain ⟨r, c1⟩ := p
        cases r with
        | ok x => cases x; exact ih c1
        | error e =>
          cases e with
          | outOfBounds => exact ih c1
          | nullDereference => rfl

/-- The last event of a sequence that yields a state, whatever it is: every child
afterwards has the identity of a child before, or of the node the event appended, or of
the node it installed. -/
theorem runLive_snoc (fuel : Nat) (evs : List Event) (ev : Event) (c0 c2 : ScreenContainer)
    (h : runLive fuel c0 (evs ++ [ev]) = some c2) :
    ∃ c1 : ScreenContainer, runLive fuel c0 evs = some c1 ∧
      ∀ u ∈ c2.m_children, (∃ w ∈ c1.m_children, w.id = u.id) ∨
        ev.appendsId u.id = true ∨ ev.installsId u.id = true := by
  rw [runLive_append] at h
  cases h1 : runLive fuel c0 evs with
  | none => simp [h1] at h
  | some c1 =>
    refine ⟨c1, rfl, ?_⟩
    simp only [h1, Option.bind] at h
    cases ev with
    | change id state =>
      simp only [runLive, Option.some.injEq] at h
      subst h
      intro u hu
      exact Or.inl (refresh_children_ids id state c1 u hu)
    | call op =>
      simp only [runLive] at h
      have key : ∀ r, op.apply fuel (op.sync c1) = some (r, c2) →
          ∀ u ∈ c2.m_children, (∃ w ∈ c1.m_children, w.id = u.id) ∨
            (Event.call op).appendsId u.id = true ∨ (Event.call op).installsId u.id = true := by
        intro r hr u hu
        obtain ⟨_, f2, _⟩ := Op.apply_frame fuel (op.sync c1) c2 op r hr
        rcases f2 u hu with h3 | h3 | h3
        · exact Or.inl (sync_children_ids op c1 u h3)
        · right; left
          cases op with
          | addScreen screen index =>
            simp only [Op.appends, decide_eq_true_eq] at h3
            obtain ⟨_, hid, _⟩ := isScreen_of_try_as _ u h3
            have hs : screen.try_as_UIElement.isSome = true := by
              have : (screen.setScreenContainer
                  ((Op.addScreen screen index).sync c1).self).try_as_UIElement.isSome = true := by
                simp [h3]
              simpa [Screen.try_as_UIElement, Screen.setScreenContainer] using this
            obtain ⟨v, hv⟩ := Option.isSome_iff_exists.mp hs
            obtain ⟨_, hvid, _⟩ := isScreen_of_try_as _ v hv
            have hid2 : u.id = screen.id := hid
            simp [Event.appendsId, hv, hvid, hid2]
          | removeAllChildren => simp [Op.appends] at h3
          | removeChildAt index => simp [Op.appends] at h3
          | replaceChild o n => simp [Op.appends] at h3
          | updateVisualTree => simp [Op.appends] at h3
        · right; right
          cases op with
          | replaceChild o n =>
            simp only [Op.installs, decide_eq_true_eq] at h3
            subst h3
            simp [Event.installsId]
          | addScreen screen index => simp [Op.installs] at h3
          | removeAllChildren => simp [Op.installs] at h3
          | removeChildAt index => simp [Op.installs] at h3
          | updateVisualTree => simp [Op.installs] at h3
      cases ha : op.apply fuel (op.sync c1) with
      | none => simp [ha] at h
      | some p =>
        obtain ⟨r, c3⟩ := p
        cases r with
        | ok x =>
          cases x
          simp only [ha, Option.some.injEq] at h
          subst h
          exact key _ ha
        | error e =>
          cases e with
          | outOfBounds =>
            simp only [ha, Option.some.injEq] at h
            subst h
            exact key _ ha
          | nullDereference => simp [ha] at h

theorem getElem?_snoc_left_event (evs : List Event) (ev x : Event) (k : Nat)
    (h : evs[k]? = some x) : (evs ++ [ev])[k]? = some x := by
  have hk : k < evs.length := by
    by_contra hn
    rw [List.getElem?_eq_none (by omega)] at h
    exact absurd h (by simp)
  rw [List.getElem?_append_left hk]; exact h

/-- C14 (as stated, refuted): a new container at address 0 after addScreen of an ON_TOP
screen (identity 1) and replaceChild of its node by a node of another object (identity 7).
The only child is the node that replaceChild installed; no addScreen call of the sequence
appended a node of that object. -/
theorem children_hold_installed_node_never_added :
    runLive 3 (ScreenContainer.new 0) exLiveAddThenReplace = some exReplaced ∧
    exPlain 7 ∈ exReplaced.m_children ∧
    (exLiveAddThenReplace.all fun ev => !ev.appendsId (exPlain 7).id) = true := by
  decide

/-- C14 (amended): in every state that a sequence of addScreen, removeAllChildren,
removeChildAt, replaceChild and updateVisualTree calls on a new container yields, with
the screens free to change their activity state between the calls, every element of
children is a node of an object that an earlier addScreen call appended or an earlier
replaceChild call installed as its new node, and a node of that object has been an element
of children in every state since that call. -/
theorem children_inserted_and_kept_live (fuel self : Nat) (evs : List Event) :
    ∀ c : ScreenContainer, runLive fuel (ScreenContainer.new self) evs = some c →
      ∀ u ∈ c.m_children, ∃ (k : Nat) (ev : Event), evs[k]? = some ev ∧
        (ev.appendsId u.id = true ∨ ev.installsId u.id = true) ∧
        ∀ (j : Nat) (cj : ScreenContainer), k < j → j ≤ evs.length →
          runLive fuel (ScreenContainer.new self) (evs.take j) = some cj →
          ∃ w ∈ cj.m_children, w.id = u.id := by
  induction evs using List.reverseRecOn with
  | nil =>
    intro c h
    simp only [runLive, Option.some.injEq] at h
    subst h
    intro u hu
    simp [ScreenContainer.new] at hu
  | append_singleton evs ev ih =>
    intro c2 h u hu
    obtain ⟨c1, h1, f2⟩ := runLive_snoc fuel evs ev _ c2 h
    have hlast : (evs ++ [ev])[evs.length]? = some ev := by simp
    have hfull : ∀ (j : Nat) (cj : ScreenContainer), evs.length < j →
        j ≤ (evs ++ [ev]).length →
        runLive fuel (ScreenContainer.new self) ((evs ++ [ev]).take j) = some cj →
        ∃ w ∈ cj.m_children, w.id = u.id := by
      intro j cj hj1 hj2 hrun
      rw [List.take_of_length_le
        (by simp only [List.length_append, List.length_singleton]; omega), h] at hrun
      simp only [Option.some.injEq] at hrun
      subst hrun
      exact ⟨u, hu, rfl⟩
    rcases f2 u hu with ⟨w, hw, hwid⟩ | h3 | h3
    · obtain ⟨k, x, hk, hx, hkept⟩ := ih c1 h1 w hw
      rw [hwid] at hx hkept
      refine ⟨k, x, getElem?_snoc_left_event evs ev x k hk, hx, ?_⟩
      intro j cj hj1 hj2 hrun
      by_cases hj : j ≤ evs.length
      · rw [List.take_append_of_le_length hj] at hrun
        exact hkept j cj hj1 hj hrun
      · exact hfull j cj (by omega) hj2 hrun
    · exact ⟨evs.length, ev, hlast, Or.inl h3, hfull⟩
    · exact ⟨evs.length, ev, hlast, Or.inr h3, hfull⟩

theorem children_inserted_and_kept_live_witness :
    (runLive 5 (ScreenContainer.new 0) exLiveSession
      = some { self := 0,
               m_children := [{ id := 1, screen := some { activityState := .ON_TOP,
                                                          screenContainer := some 0 } }],
               Content := some { id := 1, screen := some { activityState := .ON_TOP,
                                                           screenContainer := some 0 } } } ∧
    runLive 5 (ScreenContainer.new 0) (exLiveSession.take 3)
      = some { self := 0,
               m_children := [{ id := 2, screen := some { activityState := .INACTIVE,
                                                          screenContainer := some 0 } },
                              { id := 1, screen := some { activityState := .ON_TOP,
                                                          screenContainer := some 0 } }],
               Content := some { id := 1, screen := some { activityState := .ON_TOP,
                                                           screenContainer := some 0 } } }) ∧
    ∀ u ∈ [({ id := 1, screen := some { activityState := .ON_TOP,
                                         screenContainer := some 0 } } : UIElement)],
      ∃ (k : Nat) (ev : Event), exLiveSession[k]? = some ev ∧
        (ev.appendsId u.id = true ∨ ev.installsId u.id = true) ∧
        ∀ (j : Nat) (cj : ScreenContainer), k < j → j ≤ exLiveSession.length →
          runLive 5 (ScreenContainer.new 0) (exLiveSession.take j) = some cj →
          ∃ w ∈ cj.m_children, w.id = u.id :=
  ⟨⟨by decide, by decide⟩,
    children_inserted_and_kept_live 5 0 exLiveSession
      { self := 0,
        m_children := [{ id := 1, screen := some { activityState := .ON_TOP,
                                                   screenContainer := some 0 } }],
        Content := some { id := 1, screen := some { activityState := .ON_TOP,
                                                    screenContainer := some 0 } } }
      (by decide)⟩

theorem foldl_eraseIdx_append (s : List UIElement) :
    ∀ (js : List Nat) (p : List UIElement), js.Pairwise (fun a b => b < a) →
      (∀ j ∈ js, j < p.length) →
      js.foldl (fun acc i => acc.eraseIdx i) (p ++ s)
        = js.foldl (fun acc i => acc.eraseIdx i) p ++ s := by
  intro js
  induction js with
  | nil => intro p _ _; rfl
  | cons j rest ih =>
    intro p hpw hlt
    have hj : j < p.length := hlt j (by simp)
    rw [List.pairwise_cons] at hpw
    simp only [List.foldl_cons]
    rw [List.eraseIdx_append_of_lt_length hj]
    apply ih _ hpw.2
    intro i hi
    have h1 := hpw.1 i hi
    rw [List.length_eraseIdx]
    simp only [hj, if_true]
    omega

theorem specEvictionSet_snoc (l : List UIElement) (a : UIElement) :
    specEvictionSet (l ++ [a])
      = specEvictionSet l ++ (if a.reports ActivityState.INACTIVE = true then [l.length] else []) := by
  unfold specEvictionSet
  simp only [List.length_append, List.length_singleton, List.range_succ, List.filter_append]
  congr 1
  · apply List.filter_congr
    intro i hi
    rw [List.mem_range] at hi
    rw [List.getElem?_append_left hi]
  · have : (l ++ [a])[l.length]? = some a := by simp
    simp only [List.filter, this]
    cases a.reports ActivityState.INACTIVE <;> rfl

theorem specEvictionSet_lt (l : List UIElement) : ∀ j ∈ specEvictionSet l, j < l.length := by
  intro j hj
  exact List.mem_range.mp (List.mem_of_mem_filter hj)

theorem specEvictionSet_reverse_sorted (l : List UIElement) :
    (specEvictionSet l).reverse.Pairwise (fun a b => b < a) := by
  rw [List.pairwise_reverse]
  exact (List.pairwise_lt_range l.length).filter _

/-- The reverse-order pass of the spec leaves the children that do not report INACTIVE. -/
theorem specReversePass_eq_retained (l : List UIElement) : specReversePass l = retained l := by
  induction l using List.reverseRecOn with
  | nil => rfl
  | append_singleton l a ih =>
    unfold specReversePass at *
    rw [specEvictionSet_snoc, List.reverse_append, List.foldl_append]
    by_cases ha : a.reports ActivityState.INACTIVE = true
    · have herase : (l ++ [a]).eraseIdx l.length = l := by
        rw [List.eraseIdx_append_of_length_le (Nat.le_refl _)]; simp
      simp only [ha, if_true, List.reverse_singleton, List.foldl_cons, List.foldl_nil, herase, ih]
      simp [retained, ha]
    · have ha' : a.reports ActivityState.INACTIVE = false := by simpa using ha
      simp only [ha', Bool.false_eq_true, if_false, List.reverse_nil, List.foldl_nil]
      rw [foldl_eraseIdx_append [a] _ l (specEvictionSet_reverse_sorted l)
        (fun j hj => specEvictionSet_lt l j (List.mem_reverse.mp hj)), ih]
      simp [retained, ha']

/-- C15: on a container whose children all project to screens and one of which is ON_TOP,
updateVisualTree() completes and children is the original sequence with exactly the
INACTIVE elements removed, the others kept in their order; this is what the spec's
alternative computes (eviction set first, then one reverse-order pass). The forward loop
alone, started at 0 on children that are all screens, gives the same children and leaves
the content alone. -/
theorem updateVisualTree_evicts_exactly_inactive (fuel : Nat) (c : ScreenContainer)
    (hsize : c.m_children.length < 2147483648) (hfuel : c.m_children.length < fuel)
    (hall : ∀ u ∈ c.m_children, u.isScreen = true)
    (hsome : ∃ u ∈ c.m_children, u.reports ActivityState.ON_TOP = true) :
    ∃ c' : ScreenContainer, updateVisualTree fuel c = some (.ok (), c') ∧
      c'.m_children = c.m_children.filter (fun u => !(u.reports ActivityState.INACTIVE)) ∧
      c'.m_children = specReversePass c.m_children ∧
      evictLoop fuel c 0 = some (.ok (), { c with m_children := c'.m_children }) := by
  have hloop := evictLoop_scan c.m_children [] fuel c rfl (by simpa using hsize) hfuel
  simp only [List.length_nil, Nat.cast_zero, List.nil_append,
    scanEvict_allScreens _ hall] at hloop
  cases hf : firstOnTop c.m_children with
  | none =>
    exfalso
    obtain ⟨u, hu, ht⟩ := hsome
    have := (firstOnTop_none_iff _).mp hf u hu
    simp [ht] at this
  | some u =>
    refine ⟨{ c with Content := some u, m_children := retained c.m_children }, ?_, rfl,
      (specReversePass_eq_retained _).symm, hloop⟩
    rw [updateVisualTree_allScreens fuel c hsize hfuel hall, hf]

theorem updateVisualTree_evicts_exactly_inactive_witness :
    (exMixed.m_children.length < 2147483648 ∧ exMixed.m_children.length < 4 ∧
      (∀ u ∈ exMixed.m_children, u.isScreen = true) ∧
      (∃ u ∈ exMixed.m_children, u.reports ActivityState.ON_TOP = true)) ∧
    (updateVisualTree 4 exMixed
      = some (.ok (), { self := 0, m_children := [exScreen 2 .ON_TOP],
                        Content := some (exScreen 2 .ON_TOP) }) ∧
      specReversePass exMixed.m_children = [exScreen 2 .ON_TOP]) ∧
    ∃ c' : ScreenContainer, updateVisualTree 4 exMixed = some (.ok (), c') ∧
      c'.m_children = exMixed.m_children.filter (fun u => !(u.reports ActivityState.INACTIVE)) ∧
      c'.m_children = specReversePass exMixed.m_children ∧
      evictLoop 4 exMixed 0 = some (.ok (), { exMixed with m_children := c'.m_children }) :=
  ⟨⟨by decide, by decide, by decide, by decide⟩, ⟨by decide, by decide⟩,
    updateVisualTree_evicts_exactly_inactive 4 exMixed (by decide) (by decide) (by decide)
      (by decide)⟩

theorem getTopScreen_allScreens (fuel : Nat) (c : ScreenContainer)
    (hsize : c.m_children.length < 2147483648) (hfuel : c.m_children.length < fuel)
    (hall : ∀ u ∈ c.m_children, u.isScreen = true) :
    getTopScreen fuel c
      = some (.ok ((firstOnTop c.m_children).bind UIElement.try_as_Screen), c) := by
  have h1 := getTopScreenLoop_scan c c.m_children [] fuel rfl (by simpa using hsize) hfuel
  simp only [List.length_nil, Nat.cast_zero] at h1
  rw [scanTop_allScreens _ hall] at h1
  exact h1

theorem reports_onTop_not_inactive (u : UIElement)
    (h : u.reports ActivityState.ON_TOP = true) : u.reports ActivityState.INACTIVE = false := by
  cases hb : u.reports ActivityState.INACTIVE with
  | false => rfl
  | true => exact absurd (reports_unique u _ _ h hb) (by decide)

/-- C16: on a container whose children are screens, addScreen of a projectable screen
completes and behaves as append, show, visibility pass. With v the visual node of the
screen: if some element of the old children followed by v is ON_TOP, the content ends as
the first such element and children ends as the old children followed by v without the
INACTIVE elements; otherwise the content ends as v and children as the old children
followed by v. -/
theorem addScreen_append_show_pass (fuel : Nat) (c : ScreenContainer) (screen : Screen)
    (index : Int)
    (hsize : c.m_children.length + 1 < 2147483648) (hfuel : c.m_children.length + 1 < fuel)
    (hall : ∀ u ∈ c.m_children, u.isScreen = true)
    (hproj : screen.try_as_UIElement.isSome = true) :
    ∃ v : UIElement, (screen.setScreenContainer c.self).try_as_UIElement = some v ∧
      v.id = screen.id ∧
      (∀ a, v.reports a = decide (screen.getActivityState = a)) ∧
      ((∃ u ∈ c.m_children ++ [v], u.reports ActivityState.ON_TOP = true) →
        ∃ (k : Nat) (u : UIElement), (c.m_children ++ [v])[k]? = some u ∧
          u.reports ActivityState.ON_TOP = true ∧
          (∀ (j : Nat) (w : UIElement), j < k → (c.m_children ++ [v])[j]? = some w →
            w.reports ActivityState.ON_TOP = false) ∧
          addScreen fuel c screen index
            = some (.ok (),
                { c with
                  Content := some u,
                  m_children := (c.m_children ++ [v]).filter
                    (fun w => !(w.reports ActivityState.INACTIVE)) },
                screen.setScreenContainer c.self)) ∧
      ((∀ u ∈ c.m_children ++ [v], u.reports ActivityState.ON_TOP = false) →
        addScreen fuel c screen index
          = some (.ok (), { c with Content := some v, m_children := c.m_children ++ [v] },
              screen.setScreenContainer c.self)) := by
  have hproj2 : (screen.setScreenContainer c.self).try_as_UIElement.isSome = true := by
    simpa [Screen.try_as_UIElement, Screen.setScreenContainer] using hproj
  obtain ⟨v, hv⟩ := Option.isSome_iff_exists.mp hproj2
  obtain ⟨hvs, hvid, hvrep⟩ := isScreen_of_try_as _ v hv
  have hall1 : ∀ u ∈ c.m_children ++ [v], u.isScreen = true := by
    intro u hu
    rcases List.mem_append.mp hu with h | h
    · exact hall u h
    · simp only [List.mem_singleton] at h; subst h; exact hvs
  have hupd := updateVisualTree_allScreens fuel
    { c with m_children := c.m_children ++ [v], Content := some v }
    (by simpa using hsize) (by simpa using hfuel) hall1
  simp only [] at hupd
  refine ⟨v, hv, hvid, hvrep, ?_, ?_⟩
  · intro hsome
    cases hf : firstOnTop (c.m_children ++ [v]) with
    | none =>
      exfalso
      obtain ⟨u, hu, ht⟩ := hsome
      have := (firstOnTop_none_iff _).mp hf u hu
      simp [ht] at this
    | some u =>
      obtain ⟨k, hk, hu, hlow⟩ := firstOnTop_index _ u hf
      refine ⟨k, u, hk, hu, hlow, ?_⟩
      simp only [hf] at hupd
      simp only [addScreen, hv, Append, hupd, retained]
  · intro hnone
    have hf := (firstOnTop_none_iff _).mpr hnone
    simp only [hf] at hupd
    simp only [addScreen, hv, Append, hupd]

theorem addScreen_append_show_pass_witness :
    (exInactiveThenOnTop.m_children.length + 1 < 2147483648 ∧
      exInactiveThenOnTop.m_children.length + 1 < 4 ∧
      (∀ u ∈ exInactiveThenOnTop.m_children, u.isScreen = true) ∧
      exActiveScreen.try_as_UIElement.isSome = true) ∧
    (addScreen 2 (ScreenContainer.new 0) exOnTopScreen 0
      = some (.ok (), exAdded, exOnTopScreen.setScreenContainer 0)) ∧
    ∃ v : UIElement,
      (exActiveScreen.setScreenContainer exInactiveThenOnTop.self).try_as_UIElement = some v ∧
      v.id = exActiveScreen.id ∧
      (∀ a, v.reports a = decide (exActiveScreen.getActivityState = a)) ∧
      ((∃ u ∈ exInactiveThenOnTop.m_children ++ [v], u.reports ActivityState.ON_TOP = true) →
        ∃ (k : Nat) (u : UIElement), (exInactiveThenOnTop.m_children ++ [v])[k]? = some u ∧
          u.reports ActivityState.ON_TOP = true ∧
          (∀ (j : Nat) (w : UIElement), j < k →
            (exInactiveThenOnTop.m_children ++ [v])[j]? = some w →
            w.reports ActivityState.ON_TOP = false) ∧
          addScreen 4 exInactiveThenOnTop exActiveScreen 0
            = some (.ok (),
                { exInactiveThenOnTop with
                  Content := some u,
                  m_children := (exInactiveThenOnTop.m_children ++ [v]).filter
                    (fun w => !(w.reports ActivityState.INACTIVE)) },
                exActiveScreen.setScreenContainer exInactiveThenOnTop.self)) ∧
      ((∀ u ∈ exInactiveThenOnTop.m_children ++ [v], u.reports ActivityState.ON_TOP = false) →
        addScreen 4 exInactiveThenOnTop exActiveScreen 0
          = some (.ok (),
              { exInactiveThenOnTop with
                Content := some v, m_children := exInactiveThenOnTop.m_children ++ [v] },
              exActiveScreen.setScreenContainer exInactiveThenOnTop.self)) :=
  ⟨⟨by decide, by decide, by decide, by decide⟩, by decide,
    addScreen_append_show_pass 4 exInactiveThenOnTop exActiveScreen 0 (by decide) (by decide)
      (by decide) (by decide)⟩

/-- C19: on a container whose children are screens, updateVisualTree() completes and a
second run on the state it left changes nothing (same children, same content). When some
child is ON_TOP, the content after the pass is an element of the children it left, and
getTopScreen() returns the same screen before the pass and after it: the selected screen
is not evicted. -/
theorem updateVisualTree_idempotent (fuel : Nat) (c : ScreenContainer)
    (hsize : c.m_children.length < 2147483648) (hfuel : c.m_children.length < fuel)
    (hall : ∀ u ∈ c.m_children, u.isScreen = true) :
    ∃ c' : ScreenContainer, updateVisualTree fuel c = some (.ok (), c') ∧
      updateVisualTree fuel c' = some (.ok (), c') ∧
      ((∃ u ∈ c.m_children, u.reports ActivityState.ON_TOP = true) →
        ∃ (u : UIElement) (s : Screen), c'.Content = some u ∧ u ∈ c'.m_children ∧
          u.try_as_Screen = some s ∧
          getTopScreen fuel c = some (.ok (some s), c) ∧
          getTopScreen fuel c' = some (.ok (some s), c')) := by
  obtain ⟨c', hc'⟩ : ∃ c', updateVisualTree fuel c = some (.ok (), c') :=
    ⟨_, updateVisualTree_allScreens fuel c hsize hfuel hall⟩
  refine ⟨c', hc', updateVisualTree_twice_allScreens fuel c c' hsize hfuel hall hc', ?_⟩
  intro hsome
  cases hf : firstOnTop c.m_children with
  | none =>
    exfalso
    obtain ⟨u, hu, ht⟩ := hsome
    have := (firstOnTop_none_iff _).mp hf u hu
    simp [ht] at this
  | some u =>
    rw [updateVisualTree_allScreens fuel c hsize hfuel hall] at hc'
    simp only [hf, Option.some.injEq, Prod.mk.injEq, true_and] at hc'
    subst hc'
    obtain ⟨k, hk, hu, _⟩ := firstOnTop_index _ u hf
    have hmem : u ∈ c.m_children := List.getElem?_mem hk
    have hus := hall u hmem
    cases hs : u.try_as_Screen with
    | none => simp [UIElement.isScreen, hs] at hus
    | some s =>
      have hl := retained_length_le c.m_children
      refine ⟨u, s, rfl, ?_, hs, ?_, ?_⟩
      · exact List.mem_filter.mpr ⟨hmem, by simp [reports_onTop_not_inactive u hu]⟩
      · rw [getTopScreen_allScreens fuel c hsize hfuel hall, hf]
        simp [hs]
      · rw [getTopScreen_allScreens fuel _ (by simp only; omega) (by simp only; omega)
          (retained_allScreens _ hall)]
        simp only [firstOnTop_retained, hf]
        simp [hs]

theorem updateVisualTree_idempotent_witness :
    (exMixed.m_children.length < 2147483648 ∧ exMixed.m_children.length < 4 ∧
      (∀ u ∈ exMixed.m_children, u.isScreen = true)) ∧
    ∃ c' : ScreenContainer, updateVisualTree 4 exMixed = some (.ok (), c') ∧
      updateVisualTree 4 c' = some (.ok (), c') ∧
      ((∃ u ∈ exMixed.m_children, u.reports ActivityState.ON_TOP = true) →
        ∃ (u : UIElement) (s : Screen), c'.Content = some u ∧ u ∈ c'.m_children ∧
          u.try_as_Screen = some s ∧
          getTopScreen 4 exMixed = some (.ok (some s), exMixed) ∧
          getTopScreen 4 c' = some (.ok (some s), c')) :=
  ⟨⟨by decide, by decide, by decide⟩,
    updateVisualTree_idempotent 4 exMixed (by decide) (by decide) (by decide)⟩

/-- Dropping the record from the instrumented loop of getTopScreen gives the loop. -/
theorem getTopScreenLoopTrace_erase (c : ScreenContainer) :
    ∀ (fuel : Nat) (i : Int),
      (getTopScreenLoopTrace c fuel i).map Prod.fst = getTopScreenLoop c fuel i := by
  intro fuel
  induction fuel with
  | zero => intro i; rfl
  | succ f ih =>
    intro i
    rw [getTopScreenLoopTrace, getTopScreenLoop]
    split
    · cases hg : GetAt c.m_children (toUInt32 i) with
      | error e => rfl
      | ok child =>
        simp only
        cases hs : child.try_as_Screen with
        | none => rfl
        | some screen =>
          simp only
          split
          · rfl
          · rw [← ih]
            cases getTopScreenLoopTrace c f (wrapInt32 (i + 1)) with
            | none => rfl
            | some p => rfl
    · rfl

/-- Dropping the record from the instrumented eviction loop gives the eviction loop. -/
theorem evictLoopTrace_erase :
    ∀ (fuel : Nat) (c : ScreenContainer) (i : Int),
      (evictLoopTrace fuel c i).map Prod.fst = evictLoop fuel c i := by
  intro fuel
  induction fuel with
  | zero => intro c i; rfl
  | succ f ih =>
    intro c i
    rw [evictLoopTrace, evictLoop]
    split
    · cases hg : GetAt c.m_children (toUInt32 i) with
      | error e => rfl
      | ok child =>
        simp only
        cases hs : child.try_as_Screen with
        | none => rfl
        | some screen =>
          simp only
          split
          · cases hr : removeChildAt c i with
            | mk r0 c0 =>
              cases r0 with
              | error e => rfl
              | ok x =>
                cases x
                simp only
                rw [← ih]
                cases evictLoopTrace f c0 (wrapInt32 (wrapInt32 (i - 1) + 1)) with
                | none => rfl
                | some p => rfl
          · rw [← ih]
            cases evictLoopTrace f c (wrapInt32 (i + 1)) with
            | none => rfl
            | some p => rfl
    · rfl

theorem inBounds_body (n size : Nat) (x : Option UIElement)
    (rem : Option (Int × Except Fault Unit)) (h : n < size) (hs : size < 2147483648)
    (hrem : rem = none ∨ rem = some ((n : Int), .ok ())) :
    LoopTest.inBounds ⟨(n : Int), size, some n, x, rem⟩ := by
  have hu : toUInt32 (n : Int) = n := toUInt32_natCast n (by omega)
  show (0 : Int) ≤ (n : Int) ∧ (n : Int) ≤ (size : Int) ∧
    ((toUInt32 (n : Int) : Nat) : Int) = (n : Int) ∧
    (∀ p : Nat, some n = some p → (p : Int) = (n : Int) ∧ p < size) ∧
    (∀ (a : Int) (r : Except Fault Unit), rem = some (a, r) →
      a = (n : Int) ∧ 0 ≤ a ∧ a < (size : Int) ∧ r = .ok ())
  refine ⟨by omega, by omega, by rw [hu], ?_, ?_⟩
  · intro p hp
    simp only [Option.some.injEq] at hp
    subst hp
    exact ⟨rfl, h⟩
  · intro a r hr
    rcases hrem with h1 | h1
    · simp [h1] at hr
    · simp only [h1, Option.some.injEq, Prod.mk.injEq] at hr
      obtain ⟨rfl, rfl⟩ := hr
      exact ⟨rfl, by omega, by omega, rfl⟩

theorem inBounds_exit (n : Nat) (hs : n < 2147483648) :
    LoopTest.inBounds ⟨(n : Int), n, none, none, none⟩ := by
  have hu : toUInt32 (n : Int) = n := toUInt32_natCast n (by omega)
  show (0 : Int) ≤ (n : Int) ∧ (n : Int) ≤ (n : Int) ∧
    ((toUInt32 (n : Int) : Nat) : Int) = (n : Int) ∧
    (∀ p : Nat, (none : Option Nat) = some p → (p : Int) = (n : Int) ∧ p < n) ∧
    (∀ (a : Int) (r : Except Fault Unit), (none : Option (Int × Except Fault Unit)) = some (a, r) →
      a = (n : Int) ∧ 0 ≤ a ∧ a < (n : Int) ∧ r = .ok ())
  exact ⟨by omega, by omega, by rw [hu], fun p hp => by simp at hp,
    fun a r hr => by simp at hr⟩

/-- The instrumented loop of getTopScreen, started at the position after `pre` with enough
fuel, computes `scanTop` of the remaining children, and every loop test is in bounds. -/
theorem getTopScreenLoopTrace_scan (c : ScreenContainer) :
    ∀ (suf pre : List UIElement) (fuel : Nat), c.m_children = pre ++ suf →
      (pre ++ suf).length < 2147483648 → suf.length < fuel →
      ∃ tests : List LoopTest,
        getTopScreenLoopTrace c fuel (pre.length : Int) = some ((scanTop suf, c), tests) ∧
        ∀ t ∈ tests, t.inBounds := by
  intro suf
  induction suf with
  | nil =>
    intro pre fuel hc hlen hfuel
    obtain ⟨f, rfl⟩ : ∃ f, fuel = f + 1 := ⟨fuel - 1, by simp at hfuel; omega⟩
    simp at hlen hc
    refine ⟨[⟨(pre.length : Int), pre.length, none, none, none⟩], ?_, ?_⟩
    · simp [getTopScreenLoopTrace, scanTop, Size, hc, toUInt32_natCast pre.length (by omega)]
    · intro t ht
      simp only [List.mem_singleton] at ht
      subst ht
      exact inBounds_exit _ hlen
  | cons u us ih =>
    intro pre fuel hc hlen hfuel
    obtain ⟨f, rfl⟩ : ∃ f, fuel = f + 1 := ⟨fuel - 1, by simp at hfuel; omega⟩
    have hlen' := hlen
    simp at hlen hfuel
    have h1 : toUInt32 (pre.length : Int) = pre.length := toUInt32_natCast _ (by omega)
    have h2 : wrapInt32 ((pre.length : Int) + 1) = ((pre ++ [u]).length : Int) := by
      rw [wrapInt32_succ _ (by omega)]; simp
    obtain ⟨tests, h3, h4⟩ := ih (pre ++ [u]) f (by simp [hc]) (by simp; omega) (by omega)
    have hgood : ∀ (x : Option UIElement), LoopTest.inBounds
        ⟨(pre.length : Int), (pre ++ u :: us).length, some pre.length, x, none⟩ :=
      fun x => inBounds_body _ _ x none (by simp) hlen' (Or.inl rfl)
    rw [getTopScreenLoopTrace, h1, hc, GetAt_append]
    simp only [Size]
    rw [if_pos (by simp)]
    simp only [scanTop]
    cases hs : u.try_as_Screen with
    | none =>
      exact ⟨_, rfl, fun t ht => by
        simp only [List.mem_singleton] at ht; subst ht; exact hgood _⟩
    | some screen =>
      simp only
      by_cases ht : screen.getActivityState = ActivityState.ON_TOP
      · simp only [ht, if_true]
        exact ⟨_, rfl, fun t ht => by
          simp only [List.mem_singleton] at ht; subst ht; exact hgood _⟩
      · simp only [ht, if_false]
        rw [h2, h3]
        refine ⟨_, rfl, fun t ht => ?_⟩
        rcases List.mem_cons.mp ht with h5 | h5
        · subst h5; exact hgood _
        · exact h4 t h5

/-- The instrumented eviction loop, started at the position after `pre` with enough fuel,
keeps `pre` and computes `scanEvict` of the remaining children; every loop test is in
bounds; when the remaining children are screens, the elements examined are exactly the
remaining children in their order, one loop body each, followed by the exit test. -/
theorem evictLoopTrace_scan :
    ∀ (suf pre : List UIElement) (fuel : Nat) (c : ScreenContainer), c.m_children = pre ++ suf →
      (pre ++ suf).length < 2147483648 → suf.length < fuel →
      ∃ tests : List LoopTest,
        evictLoopTrace fuel c (pre.length : Int)
          = some (((scanEvict suf).1, { c with m_children := pre ++ (scanEvict suf).2 }), tests) ∧
        (∀ t ∈ tests, t.inBounds) ∧
        ((∀ u ∈ suf, u.isScreen = true) →
          tests.filterMap (fun t => t.examined) = suf ∧
          (tests.filter (fun t => t.accessed.isSome)).length = suf.length ∧
          tests.length = suf.length + 1) := by
  intro suf
  induction suf with
  | nil =>
    intro pre fuel c hc hlen hfuel
    obtain ⟨f, rfl⟩ : ∃ f, fuel = f + 1 := ⟨fuel - 1, by simp at hfuel; omega⟩
    simp at hlen hc
    refine ⟨[⟨(pre.length : Int), pre.length, none, none, none⟩], ?_, ?_, ?_⟩
    · simp [evictLoopTrace, scanEvict, Size, hc, toUInt32_natCast pre.length (by omega)]
      cases c; simp_all
    · intro t ht
      simp only [List.mem_singleton] at ht
      subst ht
      exact inBounds_exit _ hlen
    · intro _; simp
  | cons u us ih =>
    intro pre fuel c hc hlen hfuel
    obtain ⟨f, rfl⟩ : ∃ f, fuel = f + 1 := ⟨fuel - 1, by simp at hfuel; omega⟩
    have hlen' := hlen
    simp at hlen hfuel
    have h1 : toUInt32 (pre.length : Int) = pre.length := toUInt32_natCast _ (by omega)
    have h2 : wrapInt32 ((pre.length : Int) + 1) = ((pre ++ [u]).length : Int) := by
      rw [wrapInt32_succ _ (by omega)]; simp
    obtain ⟨tests3, h3, g3, k3⟩ :=
      ih (pre ++ [u]) f c (by simp [hc]) (by simp; omega) (by omega)
    obtain ⟨tests4, h4, g4, k4⟩ :=
      ih pre f { c with m_children := pre ++ us } rfl (by simp; omega) (by omega)
    have h5 := removeChildAt_append c pre us u hc (by omega)
    have h6 := wrapInt32_pred_succ pre.length (by omega)
    have hgood : ∀ (x : Option UIElement) (rem : Option (Int × Except Fault Unit)),
        (rem = none ∨ rem = some ((pre.length : Int), .ok ())) → LoopTest.inBounds
        ⟨(pre.length : Int), (pre ++ u :: us).length, some pre.length, x, rem⟩ :=
      fun x rem hrem => inBounds_body _ _ x rem (by simp) hlen' hrem
    have hceq : ({ c with m_children := pre ++ u :: us } : ScreenContainer) = c := by
      rw [← hc]
    simp only [List.append_assoc, List.singleton_append] at h3
    rw [evictLoopTrace, h1, hc, GetAt_append]
    simp only [Size]
    rw [if_pos (by simp)]
    simp only [scanEvict]
    cases hs : u.try_as_Screen with
    | none =>
      simp only [hceq]
      refine ⟨_, rfl, fun t ht => ?_, fun hall => ?_⟩
      · simp only [List.mem_singleton] at ht; subst ht; exact hgood _ _ (Or.inl rfl)
      · have := hall u (by simp)
        simp [UIElement.isScreen, hs] at this
    | some screen =>
      simp only
      by_cases ht : screen.getActivityState = ActivityState.INACTIVE
      · simp only [ht, if_true, h6]
        rw [h5]
        simp only [h4]
        refine ⟨_, rfl, fun t ht => ?_, fun hall => ?_⟩
        · rcases List.mem_cons.mp ht with h7 | h7
          · subst h7; exact hgood _ _ (Or.inr rfl)
          · exact g4 t h7
        · obtain ⟨e1, e2, e3⟩ := k4 (fun w hw => hall w (by simp [hw]))
          simp [e1, e2, e3]
      · simp only [ht, if_false]
        rw [h2, h3]
        refine ⟨_, rfl, fun t ht => ?_, fun hall => ?_⟩
        · rcases List.mem_cons.mp ht with h7 | h7
          · subst h7; exact hgood _ _ (Or.inl rfl)
          · exact g3 t h7
        · obtain ⟨e1, e2, e3⟩ := k3 (fun w hw => hall w (by simp [hw]))
          simp [e1, e2, e3]

/-- C17: for every children sequence of screens (fewer than 2^31), the eviction loop of
updateVisualTree(), started at 0 with fuel above the number of children, terminates; the
elements its bodies examine are exactly the elements of the original sequence, each once
and in order, so the number of loop iterations is the original length of children (one
more loop test, the exit test, follows), whatever the number of removals. -/
theorem evictLoop_examines_each_child_once (fuel : Nat) (c : ScreenContainer)
    (hsize : c.m_children.length < 2147483648) (hfuel : c.m_children.length < fuel)
    (hall : ∀ u ∈ c.m_children, u.isScreen = true) :
    ∃ (c' : ScreenContainer) (tests : List LoopTest),
      evictLoopTrace fuel c 0 = some ((.ok (), c'), tests) ∧
      evictLoop fuel c 0 = some (.ok (), c') ∧
      tests.filterMap (fun t => t.examined) = c.m_children ∧
      (tests.filter (fun t => t.accessed.isSome)).length = c.m_children.length ∧
      tests.length = c.m_children.length + 1 := by
  obtain ⟨tests, h1, _, h3⟩ :=
    evictLoopTrace_scan c.m_children [] fuel c rfl (by simpa using hsize) hfuel
  simp only [List.length_nil, Nat.cast_zero, List.nil_append,
    scanEvict_allScreens _ hall] at h1
  obtain ⟨e1, e2, e3⟩ := h3 hall
  refine ⟨_, tests, h1, ?_, e1, e2, e3⟩
  rw [← evictLoopTrace_erase, h1]; rfl

theorem evictLoop_examines_each_child_once_witness :
    (exMixed.m_children.length < 2147483648 ∧ exMixed.m_children.length < 4 ∧
      (∀ u ∈ exMixed.m_children, u.isScreen = true)) ∧
    (evictLoopTrace 4 exMixed 0).map (fun p => p.2.map (fun t => (t.counter, t.size)))
      = some [(0, 3), (0, 2), (1, 2), (1, 1)] ∧
    ∃ (c' : ScreenContainer) (tests : List LoopTest),
      evictLoopTrace 4 exMixed 0 = some ((.ok (), c'), tests) ∧
      evictLoop 4 exMixed 0 = some (.ok (), c') ∧
      tests.filterMap (fun t => t.examined) = exMixed.m_children ∧
      (tests.filter (fun t => t.accessed.isSome)).length = exMixed.m_children.length ∧
      tests.length = exMixed.m_children.length + 1 :=
  ⟨⟨by decide, by decide, by decide⟩, by decide,
    evictLoop_examines_each_child_once 4 exMixed (by decide) (by decide) (by decide)⟩

/-- C18: on a container whose children are screens (fewer than 2^31), every loop test of
getTopScreen() and of the eviction loop of updateVisualTree() (started at 0, whatever the
content) is in bounds: the signed counter i satisfies 0 <= i <= Size(), so converting it
to unsigned for the comparison does not change it, also after the decrement that follows
a removal at 0; every GetAt is at position i < Size(); every removeChildAt call gets an i
with 0 <= i < Size() and completes. Both loops end without a fault. -/
theorem loops_access_in_bounds (fuel : Nat) (c : ScreenContainer)
    (hsize : c.m_children.length < 2147483648) (hfuel : c.m_children.length < fuel)
    (hall : ∀ u ∈ c.m_children, u.isScreen = true) :
    (∃ (r : Option Screen) (tests : List LoopTest),
      getTopScreenLoopTrace c fuel 0 = some ((.ok r, c), tests) ∧
      getTopScreen fuel c = some (.ok r, c) ∧
      ∀ t ∈ tests, t.inBounds) ∧
    (∃ (c' : ScreenContainer) (tests : List LoopTest),
      evictLoopTrace fuel c 0 = some ((.ok (), c'), tests) ∧
      evictLoop fuel c 0 = some (.ok (), c') ∧
      ∀ t ∈ tests, t.inBounds) := by
  constructor
  · obtain ⟨tests, h1, h2⟩ :=
      getTopScreenLoopTrace_scan c c.m_children [] fuel rfl (by simpa using hsize) hfuel
    simp only [List.length_nil, Nat.cast_zero, scanTop_allScreens _ hall] at h1
    refine ⟨_, tests, h1, ?_, h2⟩
    unfold getTopScreen
    rw [← getTopScreenLoopTrace_erase, h1]; rfl
  · obtain ⟨tests, h1, h2, _⟩ :=
      evictLoopTrace_scan c.m_children [] fuel c rfl (by simpa using hsize) hfuel
    simp only [List.length_nil, Nat.cast_zero, List.nil_append,
      scanEvict_allScreens _ hall] at h1
    refine ⟨_, tests, h1, ?_, h2⟩
    rw [← evictLoopTrace_erase, h1]; rfl

theorem loops_access_in_bounds_witness :
    (exMixed.m_children.length < 2147483648 ∧ exMixed.m_children.length < 4 ∧
      (∀ u ∈ exMixed.m_children, u.isScreen = true)) ∧
    (getTopScreenLoopTrace exMixed 4 0).map
        (fun p => p.2.map (fun t => (t.counter, t.size, t.accessed)))
      = some [(0, 3, some 0), (1, 3, some 1)] ∧
    (evictLoopTrace 4 exMixed 0).map
        (fun p => p.2.map (fun t => (t.counter, t.size, t.accessed, t.removal)))
      = some [(0, 3, some 0, some (0, .ok ())), (0, 2, some 0, none),
          (1, 2, some 1, some (1, .ok ())), (1, 1, none, none)] ∧
    ((∃ (r : Option Screen) (tests : List LoopTest),
      getTopScreenLoopTrace exMixed 4 0 = some ((.ok r, exMixed), tests) ∧
      getTopScreen 4 exMixed = some (.ok r, exMixed) ∧
      ∀ t ∈ tests, t.inBounds) ∧
    (∃ (c' : ScreenContainer) (tests : List LoopTest),
      evictLoopTrace 4 exMixed 0 = some ((.ok (), c'), tests) ∧
      evictLoop 4 exMixed 0 = some (.ok (), c') ∧
      ∀ t ∈ tests, t.inBounds)) :=
  ⟨⟨by decide, by decide, by decide⟩, rfl, rfl,
    loops_access_in_bounds 4 exMixed (by decide) (by decide) (by decide)⟩

end RNScreens
